import Mathlib

set_option maxHeartbeats 1000000

/-!
Verification of the Nigh.ty game server's world runtime against its
natural-language specification.  The Python modules `server/physics.py`,
`server/world.py` and `server/player.py` are shallowly embedded below:
pure numeric code becomes functions over `ℝ`, the mutable `WorldState`
becomes explicit state passing over a `WorldM` structure, Python dicts
become insertion-ordered association lists, and every source of
randomness (`uuid4`) becomes an explicit parameter.
-/

namespace Nighty

/-! ## Module-level name analysis (world.py / physics.py imports) -/

/-- Top-level names defined by `server/physics.py`. -/
def physicsModuleTopLevel : List String :=
  ["Vector", "MAX_DELTA_TIME", "CONTROL_RESPONSE", "LINEAR_DAMPING",
   "OWNER_COHESION", "SEPARATION_RESPONSE", "COLLISION_RESTITUTION",
   "COLLISION_FRICTION", "BASE_CELL_SPEED", "MIN_CELL_SPEED",
   "MASS_SLOWDOWN", "CollisionEvent", "PhysicsBody", "PhysicsEngine",
   "CellLike"]

/-- Names that `server/world.py` imports from `.physics` (lines 13-22). -/
def worldImportsFromPhysics : List String :=
  ["BASE_TARGET_SPEED", "BOOST_SPEED_MULTIPLIER", "MASS_SPEED_EXPONENT",
   "MAX_DELTA_TIME", "MIN_TARGET_SPEED", "CollisionEvent", "PhysicsEngine",
   "Vector"]

/-- Names evaluated by the split-impulse computation in
`WorldState.split_player` (world.py lines 354-356). -/
def splitImpulseNames : List String :=
  ["MIN_TARGET_SPEED", "BASE_TARGET_SPEED", "MASS_SPEED_EXPONENT",
   "BOOST_SPEED_MULTIPLIER"]

/-- A Python `from .physics import (...)` statement succeeds exactly when
every imported name is bound at top level in the physics module. -/
def worldImportSucceeds : Bool :=
  worldImportsFromPhysics.all (fun n => physicsModuleTopLevel.contains n)

noncomputable section

/-! ## Physics constants (physics.py lines 20-40) -/

def MAX_DELTA_TIME : ℝ := 1.0 / 20.0

def CONTROL_RESPONSE : ℝ := 8.0

def LINEAR_DAMPING : ℝ := 0.08

def OWNER_COHESION : ℝ := 34.0

def SEPARATION_RESPONSE : ℝ := 0.65

def COLLISION_RESTITUTION : ℝ := 0.05

def COLLISION_FRICTION : ℝ := 0.85

def BASE_CELL_SPEED : ℝ := 260.0

def MIN_CELL_SPEED : ℝ := 45.0

def MASS_SLOWDOWN : ℝ := 0.45

/-! ## World constants (world.py lines 26-30) -/

def SPLIT_MIN_RADIUS : ℝ := 30.0

def SPLIT_COOLDOWN : ℝ := 2.0

def MERGE_DELAY : ℝ := 3.0

def MERGE_DISTANCE_FACTOR : ℝ := 0.9

def ABSORB_RATIO : ℝ := 1.02

/-- Modelled from the spec: `BASE_TARGET_SPEED` is imported by world.py but
defined nowhere under src/; the spec (section 4.1) gives BASE = 520. -/
def BASE_TARGET_SPEED : ℝ := 520.0

/-- Modelled from the spec: `MIN_TARGET_SPEED` is imported by world.py but
defined nowhere under src/; the spec (section 4.1) gives MIN = 48. -/
def MIN_TARGET_SPEED : ℝ := 48.0

/-- Modelled from the spec: `MASS_SPEED_EXPONENT` is imported by world.py but
defined nowhere under src/; the spec (section 4.1) gives exponent = 0.42. -/
def MASS_SPEED_EXPONENT : ℝ := 0.42

/-- Modelled from the spec: `BOOST_SPEED_MULTIPLIER` is imported by world.py
but defined nowhere under src/; the spec (section 4.1) gives BOOST_MULT = 2.3. -/
def BOOST_SPEED_MULTIPLIER : ℝ := 2.3

/-! ## dt clamping (physics.py line 141, world.py line 185, line 558) -/

/-- The clamp applied to `dt` at the top of `PhysicsEngine.step`. -/
def stepClampDt (dt : ℝ) : ℝ := max 1e-4 (min dt MAX_DELTA_TIME)

/-- The clamp applied to `dt` at the top of `WorldState.tick`. -/
def tickClampDt (dt : ℝ) : ℝ := max 1e-4 (min dt MAX_DELTA_TIME)

/-- The clamp applied to the raw frame time in `WorldManager._run_world`. -/
def runnerClampDt (rawDt : ℝ) : ℝ := min rawDt MAX_DELTA_TIME

/-! ## Steering speed (physics.py lines 183-207) -/

/-- The movement speed cap computed in `_apply_control` (lines 189-190):
`max_speed = BASE_CELL_SPEED - radius * MASS_SLOWDOWN`, then clamped into
`[MIN_CELL_SPEED, BASE_CELL_SPEED]`. -/
def cellMaxSpeed (radius : ℝ) : ℝ :=
  max MIN_CELL_SPEED (min BASE_CELL_SPEED (BASE_CELL_SPEED - radius * MASS_SLOWDOWN))

/-- The desired chase velocity computed in `_apply_control` (lines 184-196):
the unit vector from position to target scaled by `cellMaxSpeed`, or zero
when the target is within `1e-4`. -/
def desiredVelocity (pos target : ℝ × ℝ) (radius : ℝ) : ℝ × ℝ :=
  let dx := target.1 - pos.1
  let dy := target.2 - pos.2
  let distance := Real.sqrt (dx ^ 2 + dy ^ 2)
  if 1e-4 < distance then
    (dx / distance * cellMaxSpeed radius, dy / distance * cellMaxSpeed radius)
  else (0, 0)

/-- The speed formula the spec asserts: `max(MIN_TARGET_SPEED,
BASE_TARGET_SPEED / mass ^ MASS_SPEED_EXPONENT)` with mass = max(r², 1). -/
def specClaimedSpeed (radius : ℝ) : ℝ :=
  max MIN_TARGET_SPEED (BASE_TARGET_SPEED / (max (radius ^ 2) 1) ^ MASS_SPEED_EXPONENT)

/-- Magnitude of a 2-vector, as `math.hypot` computes it. -/
def vecNorm (v : ℝ × ℝ) : ℝ := Real.sqrt (v.1 ^ 2 + v.2 ^ 2)

/-! ## Split direction (world.py lines 328-337) -/

/-- The direction chosen by `split_player`: the unit vector from the cell to
the owner's target, or, if the target is within `1e-3` of the position, an
angle derived from a fresh `uuid4` draw (modelled by `angleSeed`). -/
def splitDirection (origin target : ℝ × ℝ) (angleSeed : ℕ) : ℝ × ℝ :=
  let dx := target.1 - origin.1
  let dy := target.2 - origin.2
  let distance := Real.sqrt (dx ^ 2 + dy ^ 2)
  if distance < 1e-3 then
    let angle := ((angleSeed % 360 : ℕ) : ℝ) * Real.pi / 180.0
    (Real.cos angle, Real.sin angle)
  else (dx / distance, dy / distance)

end

/-! ## Player colors (player.py lines 12-27) -/

/-- The default color factory `_default_color`: a fresh `uuid4` integer
(modelled by `seed`) reduced mod 0xFFFFFF and unpacked into RGB bytes. -/
def defaultColor (seed : ℕ) : ℕ × ℕ × ℕ :=
  let base := seed % 0xFFFFFF
  ((base >>> 16) &&& 0xFF, (base >>> 8) &&& 0xFF, base &&& 0xFF)

/-- The `Player` dataclass. -/
structure PlayerM where
  name : String
  token : String
  id : String
  color : ℕ × ℕ × ℕ
  score : ℝ
  foodEaten : ℕ
  cellsEaten : ℕ

/-- Constructing a `Player` with an explicit id: the color default factory
draws a fresh uuid (`colorSeed`), independent of the id. -/
def mkPlayer (name tok id : String) (colorSeed : ℕ) : PlayerM :=
  { name := name, token := tok, id := id, color := defaultColor colorSeed,
    score := 0, foodEaten := 0, cellsEaten := 0 }

/-! ## World data model (world.py lines 33-104) -/

/-- The `Cell` dataclass, unified with its mirroring `PhysicsBody`:
the engine's `sync_from_cell`/`sync_to_cell` keep position, velocity and
radius identical on both sides, and the body's `target` and derived `mass`
are carried here as well. -/
structure CellM where
  id : String
  playerId : String
  pos : ℝ × ℝ
  vel : ℝ × ℝ
  radius : ℝ
  target : ℝ × ℝ
  mergeReadyAt : ℝ

/-- `Cell.area`: π·r². -/
noncomputable def cellArea (c : CellM) : ℝ := Real.pi * c.radius ^ 2

/-- `PhysicsBody.mass`: max(r², 1), kept in sync with the radius. -/
noncomputable def cellMass (c : CellM) : ℝ := max (c.radius ^ 2) 1

/-- The `Food` dataclass. -/
structure FoodM where
  id : String
  pos : ℝ × ℝ
  value : ℝ

/-- The `WorldConfig` dataclass (food_count is a Python `int`). -/
structure WorldConfigM where
  name : String
  width : ℝ
  height : ℝ
  tickRate : ℝ
  foodCount : ℤ
  snapshotInterval : ℝ

/-- A `player_eliminated` event dict appended by `_absorb`. -/
structure EventM where
  typ : String
  winnerId : String
  loserId : String
  winnerName : Option String
  loserName : Option String

/-- The mutable `WorldState`.  Python dicts become insertion-ordered
association lists; `cells` and `players` are keyed by their `id` field. -/
structure WorldM where
  config : WorldConfigM
  players : List PlayerM
  cells : List CellM
  playerCells : List (String × List String)
  foods : List FoodM
  targets : List (String × (ℝ × ℝ))
  events : List EventM
  splitCooldowns : List (String × ℝ)

/-! ## Association-list helpers mirroring Python dict operations -/

/-- `dict.get(k)`. -/
def alookup {α : Type} (l : List (String × α)) (k : String) : Option α :=
  (l.find? (fun p => p.1 == k)).map Prod.snd

/-- `dict[k] = v`: replace in place when the key is present (preserving
insertion order), otherwise append. -/
def aset {α : Type} (l : List (String × α)) (k : String) (v : α) :
    List (String × α) :=
  if (l.find? (fun p => p.1 == k)).isSome then
    l.map (fun p => if p.1 == k then (k, v) else p)
  else l ++ [(k, v)]

/-- `dict.pop(k, None)`. -/
def aremove {α : Type} (l : List (String × α)) (k : String) :
    List (String × α) :=
  l.filter (fun p => !(p.1 == k))

/-- `self.cells.get(cid)`. -/
def getCell (s : WorldM) (cid : String) : Option CellM :=
  s.cells.find? (fun c => c.id == cid)

/-- Writing back a mutated cell object: the dict entry with the same id is
the very object that was mutated, so replacement happens in place; a value
whose id is absent from the dict corresponds to mutating a stale object,
which leaves the dict unchanged. -/
def setCell (cells : List CellM) (c : CellM) : List CellM :=
  cells.map (fun x => if x.id == c.id then c else x)

/-- `self.players.get(pid)`. -/
def getPlayer (s : WorldM) (pid : String) : Option PlayerM :=
  s.players.find? (fun p => p.id == pid)

/-- `WorldState._clamp_position` (world.py lines 153-157) and the engine's
`_clamp` (physics.py lines 356-360): both clamp into [0,width]×[0,height]. -/
noncomputable def clampPos (w h : ℝ) (p : ℝ × ℝ) : ℝ × ℝ :=
  (max 0 (min w p.1), max 0 (min h p.2))

/-- The `_collides` predicate (world.py lines 433-434). -/
noncomputable def collides (posA : ℝ × ℝ) (radiusA : ℝ) (posB : ℝ × ℝ)
    (radiusB : ℝ) : Prop :=
  Real.sqrt ((posA.1 - posB.1) ^ 2 + (posA.2 - posB.2) ^ 2) ≤ radiusA + radiusB

noncomputable instance (posA : ℝ × ℝ) (radiusA : ℝ) (posB : ℝ × ℝ)
    (radiusB : ℝ) : Decidable (collides posA radiusA posB radiusB) :=
  Real.decidableLE _ _

/-- `WorldState._remove_cell` (world.py lines 142-151): drop the cell from
the cell dict, remove its id from the owner's list, and pop the owner's
entry entirely when the list empties. -/
def removeCellW (s : WorldM) (cid : String) : WorldM :=
  match getCell s cid with
  | none => s
  | some c =>
    let cells' := s.cells.filter (fun x => !(x.id == cid))
    let pcs :=
      match alookup s.playerCells c.playerId with
      | some ids =>
        if ids ≠ [] ∧ cid ∈ ids then
          let ids' := ids.erase cid
          if ids' = [] then aremove s.playerCells c.playerId
          else aset s.playerCells c.playerId ids'
        else s.playerCells
      | none => s.playerCells
    { s with cells := cells', playerCells := pcs }

/-! ## Absorption (world.py lines 387-422) -/

/-- The mutation `_absorb` performs on the winner cell object: position
moves to the clamped area-weighted centroid (loser area weighted at 0.8),
radius becomes √(total_area/π), and the merge timer restarts. -/
noncomputable def absorbedWinner (cfg : WorldConfigM) (winner loser : CellM)
    (now : ℝ) : CellM :=
  let winnerArea := cellArea winner
  let loserArea := cellArea loser * 0.8
  let totalArea := winnerArea + loserArea
  let newPos :=
    if 0 < totalArea then
      clampPos cfg.width cfg.height
        (winner.pos.1 * (winnerArea / totalArea) + loser.pos.1 * (loserArea / totalArea),
         winner.pos.2 * (winnerArea / totalArea) + loser.pos.2 * (loserArea / totalArea))
    else winner.pos
  { winner with
    pos := newPos, radius := Real.sqrt (totalArea / Real.pi),
    mergeReadyAt := now + MERGE_DELAY }

/-- `WorldState._absorb(winner, loser)`.  The arguments are the cell
*objects* the caller holds (they may be stale if the caller's reference
outlived a deletion); `setCell` reproduces Python's mutate-in-place
aliasing.  After updating the winner, the winner player's `cells_eaten`
is bumped, the loser cell is removed, and if the loser owner's cell list
emptied, a `player_eliminated` event is appended (when the loser player
exists) and the loser player is dropped from all player-keyed maps. -/
noncomputable def absorbCells (s : WorldM) (winner loser : CellM) (now : ℝ) :
    WorldM :=
  let winner' := absorbedWinner s.config winner loser now
  let s1 : WorldM := { s with cells := setCell s.cells winner' }
  let winnerPlayer := getPlayer s1 winner.playerId
  let loserPlayer := getPlayer s1 loser.playerId
  let s2 : WorldM :=
    match winnerPlayer with
    | some _ =>
      { s1 with players := s1.players.map (fun p =>
          if p.id == winner.playerId then { p with cellsEaten := p.cellsEaten + 1 }
          else p) }
    | none => s1
  let s3 := removeCellW s2 loser.id
  if (alookup s3.playerCells loser.playerId).getD [] = [] then
    let s4 : WorldM :=
      match loserPlayer with
      | some lp =>
        { s3 with events := s3.events ++
            [{ typ := "player_eliminated", winnerId := winner.playerId,
               loserId := loser.playerId,
               winnerName := winnerPlayer.map PlayerM.name,
               loserName := some lp.name }] }
      | none => s3
    { s4 with
      players := s4.players.filter (fun p => !(p.id == loser.playerId)),
      targets := aremove s4.targets loser.playerId,
      splitCooldowns := aremove s4.splitCooldowns loser.playerId }
  else s3

/-! ## Same-owner merge (world.py lines 288-303) -/

/-- `WorldState._merge_cells(primary, secondary)`: the primary moves to the
clamped area-weighted centroid (when the total area is positive), takes
radius √(total_area/π), restarts its merge timer, and the secondary is
removed. -/
noncomputable def mergeCellsV (s : WorldM) (primary secondary : CellM)
    (now : ℝ) : WorldM :=
  let areaP := cellArea primary
  let areaS := cellArea secondary
  let totalArea := areaP + areaS
  let newPos :=
    if 0 < totalArea then
      clampPos s.config.width s.config.height
        ((primary.pos.1 * areaP + secondary.pos.1 * areaS) / totalArea,
         (primary.pos.2 * areaP + secondary.pos.2 * areaS) / totalArea)
    else primary.pos
  let primary' := { primary with
    pos := newPos, radius := Real.sqrt (totalArea / Real.pi),
    mergeReadyAt := now + MERGE_DELAY }
  removeCellW { s with cells := setCell s.cells primary' } secondary.id

/-! ## Split (world.py lines 305-385) -/

/-- Python's `max(cell_ids, key=f)`: the first element attaining the
maximal key (later ties do not replace the current best). -/
noncomputable def argmaxKey (f : String → ℝ) : List String → String
  | [] => ""
  | x :: xs => xs.foldl (fun best y => if f best < f y then y else best) x

/-- `WorldState.split_player`.  `now` models `time.monotonic()`, `freshId`
the `uuid4().hex` id of the new cell, and `angleSeed` the `uuid4().int`
draw behind the fallback angle. -/
noncomputable def splitPlayer (s : WorldM) (pid : String) (now : ℝ)
    (freshId : String) (angleSeed : ℕ) : WorldM :=
  let cooldownUntil := (alookup s.splitCooldowns pid).getD 0
  if now < cooldownUntil then s
  else
    let cellIds := (alookup s.playerCells pid).getD []
    if cellIds = [] then s
    else if 8 ≤ cellIds.length then s
    else
      let largestId := argmaxKey
        (fun cid => ((getCell s cid).map CellM.radius).getD 0) cellIds
      match getCell s largestId with
      | none => s
      | some cell =>
        if cell.radius < SPLIT_MIN_RADIUS then s
        else
          let newArea := cellArea cell / 2
          let newRadius := Real.sqrt (newArea / Real.pi)
          if newRadius < SPLIT_MIN_RADIUS / 2 then s
          else
            let origin := cell.pos
            let target := (alookup s.targets pid).getD origin
            let direction := splitDirection origin target angleSeed
            let separationDistance := newRadius * 2.4
            let retreatDistance := newRadius * 0.8
            let newPosition := clampPos s.config.width s.config.height
              (origin.1 - direction.1 * retreatDistance,
               origin.2 - direction.2 * retreatDistance)
            let newMass := max (newRadius * newRadius) 1
            let baseSpeed := max MIN_TARGET_SPEED
              (BASE_TARGET_SPEED / newMass ^ MASS_SPEED_EXPONENT)
            let impulse := baseSpeed * BOOST_SPEED_MULTIPLIER
            let impulseV := (direction.1 * impulse, direction.2 * impulse)
            let newCellPosition := clampPos s.config.width s.config.height
              (origin.1 + direction.1 * separationDistance,
               origin.2 + direction.2 * separationDistance)
            let splitTarget := (alookup s.targets pid).getD newCellPosition
            let cell' := { cell with
              pos := newPosition, radius := newRadius,
              mergeReadyAt := now + MERGE_DELAY,
              vel := (cell.vel.1 - impulseV.1, cell.vel.2 - impulseV.2),
              target := clampPos s.config.width s.config.height splitTarget }
            let newCell : CellM := {
              id := freshId, playerId := pid,
              pos := newCellPosition, vel := impulseV, radius := newRadius,
              target := clampPos s.config.width s.config.height splitTarget,
              mergeReadyAt := now + MERGE_DELAY }
            { s with
              cells := setCell s.cells cell' ++ [newCell],
              playerCells := aset s.playerCells pid (cellIds ++ [freshId]),
              splitCooldowns := aset s.splitCooldowns pid (now + SPLIT_COOLDOWN) }

/-! ## Physics engine step (physics.py lines 140-360) -/

/-- A `CollisionEvent`. -/
structure CollisionEv where
  firstId : String
  secondId : String
  penetration : ℝ
  normal : ℝ × ℝ

/-- `PhysicsEngine._apply_control` (lines 183-207): blend the velocity
toward the desired chase velocity, then cap its magnitude at the cell's
max speed. -/
noncomputable def applyControl (dt : ℝ) (c : CellM) : CellM :=
  let maxSpeed := cellMaxSpeed c.radius
  let desired := desiredVelocity c.pos c.target c.radius
  let blend := min 1 (dt * CONTROL_RESPONSE)
  let v := (c.vel.1 + (desired.1 - c.vel.1) * blend,
            c.vel.2 + (desired.2 - c.vel.2) * blend)
  let speed := Real.sqrt (v.1 ^ 2 + v.2 ^ 2)
  if maxSpeed < speed ∧ 1e-4 < maxSpeed then
    { c with vel := (v.1 * (maxSpeed / speed), v.2 * (maxSpeed / speed)) }
  else { c with vel := v }

/-- The damping and integration loop of `step` (lines 153-162). -/
noncomputable def integrateCell (w h dt : ℝ) (c : CellM) : CellM :=
  let v := (c.vel.1 * (1 - LINEAR_DAMPING * dt),
            c.vel.2 * (1 - LINEAR_DAMPING * dt))
  let p := (c.pos.1 + v.1 * dt, c.pos.2 + v.2 * dt)
  { c with vel := v, pos := clampPos w h p }

/-- The velocity part of an opposing-pair interaction (lines 273-301):
restitution impulse along the normal when the pair is approaching, then
tangential friction.  The masses are those of the bodies (`max(r², 1)`,
unchanged by the positional correction). -/
noncomputable def resolveOppVel (first1 second1 : CellM) (n : ℝ × ℝ) :
    CellM × CellM :=
  let relVx := second1.vel.1 - first1.vel.1
  let relVy := second1.vel.2 - first1.vel.2
  let sepV := relVx * n.1 + relVy * n.2
  let fv :=
    if sepV < 0 then
      let impulseMag := (-(1 + COLLISION_RESTITUTION) * sepV) /
        (1 / cellMass first1 + 1 / cellMass second1)
      (first1.vel.1 - n.1 * impulseMag / cellMass first1,
       first1.vel.2 - n.2 * impulseMag / cellMass first1)
    else first1.vel
  let sv :=
    if sepV < 0 then
      let impulseMag := (-(1 + COLLISION_RESTITUTION) * sepV) /
        (1 / cellMass first1 + 1 / cellMass second1)
      (second1.vel.1 + n.1 * impulseMag / cellMass second1,
       second1.vel.2 + n.2 * impulseMag / cellMass second1)
    else second1.vel
  let tVx := relVx - sepV * n.1
  let tVy := relVy - sepV * n.2
  ({ first1 with
     vel := (fv.1 + tVx * COLLISION_FRICTION * 0.5,
             fv.2 + tVy * COLLISION_FRICTION * 0.5) },
   { second1 with
     vel := (sv.1 - tVx * COLLISION_FRICTION * 0.5,
             sv.2 - tVy * COLLISION_FRICTION * 0.5) })

/-- One pairwise interaction of `_resolve_collisions` (lines 213-310):
overlapping same-owner cells are pushed apart by `SEPARATION_RESPONSE`,
overlapping opposing cells are separated, exchange a restitution impulse
and friction, and report a collision event. -/
noncomputable def resolvePair (w h : ℝ) (first second : CellM) :
    CellM × CellM × Option CollisionEv :=
  let dx := second.pos.1 - first.pos.1
  let dy := second.pos.2 - first.pos.2
  let distanceSq := dx * dx + dy * dy
  let minDistance := first.radius + second.radius
  if distanceSq < minDistance * minDistance then
    let n : ℝ × ℝ :=
      if distanceSq ≤ 1e-9 then (1, 0)
      else (dx / Real.sqrt distanceSq, dy / Real.sqrt distanceSq)
    let distance := if distanceSq ≤ 1e-9 then (0 : ℝ) else Real.sqrt distanceSq
    let penetration := minDistance - distance
    let totalMass0 := cellMass first + cellMass second
    let totalMass := if totalMass0 ≤ 0 then 1 else totalMass0
    let shareFirst := cellMass second / totalMass
    let shareSecond := cellMass first / totalMass
    if first.playerId = second.playerId then
      let separation := penetration * SEPARATION_RESPONSE
      let first' := { first with
        pos := clampPos w h (first.pos.1 - n.1 * separation * shareFirst,
                             first.pos.2 - n.2 * separation * shareFirst) }
      let second' := { second with
        pos := clampPos w h (second.pos.1 + n.1 * separation * shareSecond,
                             second.pos.2 + n.2 * separation * shareSecond) }
      (first', second', none)
    else
      let correction := penetration * 0.5
      let first1 := { first with
        pos := clampPos w h (first.pos.1 - n.1 * correction * shareFirst,
                             first.pos.2 - n.2 * correction * shareFirst) }
      let second1 := { second with
        pos := clampPos w h (second.pos.1 + n.1 * correction * shareSecond,
                             second.pos.2 + n.2 * correction * shareSecond) }
      let r := resolveOppVel first1 second1 n
      (r.1, r.2,
       some { firstId := first.id, secondId := second.id,
              penetration := penetration, normal := n })
  else (first, second, none)

/-- The ordered index pairs (i, j) with i < j visited by the nested loops
of `_resolve_collisions`. -/
def indexPairs (n : ℕ) : List (ℕ × ℕ) :=
  (List.range n).flatMap (fun i =>
    ((List.range n).filter (fun j => decide (i < j))).map (fun j => (i, j)))

/-- One step of the nested loop: read the two bodies at their indices,
interact them and write both back (Python mutates the aliased objects). -/
noncomputable def resolveStep (w h : ℝ) (st : List CellM × List CollisionEv)
    (ij : ℕ × ℕ) : List CellM × List CollisionEv :=
  match st.1.get? ij.1, st.1.get? ij.2 with
  | some first, some second =>
    let r := resolvePair w h first second
    ((st.1.set ij.1 r.1).set ij.2 r.2.1,
     match r.2.2 with
     | some e => st.2 ++ [e]
     | none => st.2)
  | _, _ => st

/-- Association list keyed by an (ordered) id pair, for deduplication. -/
def pairLookup (l : List ((String × String) × CollisionEv))
    (k : String × String) : Option CollisionEv :=
  (l.find? (fun p => p.1 == k)).map Prod.snd

/-- Insert-or-replace for the deduplication map (Python dict semantics). -/
def pairSet (l : List ((String × String) × CollisionEv))
    (k : String × String) (v : CollisionEv) :
    List ((String × String) × CollisionEv) :=
  if (l.find? (fun p => p.1 == k)).isSome then
    l.map (fun p => if p.1 == k then (k, v) else p)
  else l ++ [(k, v)]

/-- The deduplication pass at the end of `_resolve_collisions`
(lines 311-329): key events by the sorted id pair; a reversed event is
normalised (ids swapped, normal negated) and unconditionally replaces,
a forward event replaces only when strictly deeper. -/
noncomputable def dedupCollisions (evs : List CollisionEv) : List CollisionEv :=
  (evs.foldl (fun acc e =>
    if e.firstId = e.secondId then acc
    else if e.secondId < e.firstId then
      pairSet acc (e.secondId, e.firstId)
        { firstId := e.secondId, secondId := e.firstId,
          penetration := e.penetration,
          normal := (-e.normal.1, -e.normal.2) }
    else
      match pairLookup acc (e.firstId, e.secondId) with
      | none => pairSet acc (e.firstId, e.secondId) e
      | some ex =>
        if ex.penetration < e.penetration then
          pairSet acc (e.firstId, e.secondId) e
        else acc) []).map Prod.snd

/-- One full `_resolve_collisions` call: thread the incoming event list
through every index pair, then deduplicate. -/
noncomputable def resolveCollisionsPass (w h : ℝ) (cs : List CellM)
    (existing : List CollisionEv) : List CellM × List CollisionEv :=
  let r := (indexPairs cs.length).foldl (resolveStep w h) (cs, existing)
  (r.1, dedupCollisions r.2)

/-- `PhysicsEngine._apply_owner_cohesion` (lines 331-354): pull each cell of
a multi-cell owner toward the owner's mass-weighted centre; velocities only. -/
noncomputable def applyCohesion (dt : ℝ) (cs : List CellM) : List CellM :=
  cs.map (fun b =>
    let group := cs.filter (fun x => x.playerId == b.playerId)
    if group.length < 2 then b
    else
      let totalMass := (group.map cellMass).sum
      if totalMass ≤ 0 then b
      else
        let cx := (group.map (fun x => x.pos.1 * cellMass x)).sum / totalMass
        let cy := (group.map (fun x => x.pos.2 * cellMass x)).sum / totalMass
        let dx := cx - b.pos.1
        let dy := cy - b.pos.2
        let distance := Real.sqrt (dx ^ 2 + dy ^ 2)
        if distance ≤ 1e-4 then b
        else
          let pull := min distance (OWNER_COHESION * dt)
          { b with vel := (b.vel.1 + dx / distance * pull,
                           b.vel.2 + dy / distance * pull) })

/-- The final speed cap of `step` (lines 170-177). -/
noncomputable def capSpeed (c : CellM) : CellM :=
  let maxSpeed := cellMaxSpeed c.radius
  let speed := Real.sqrt (c.vel.1 ^ 2 + c.vel.2 ^ 2)
  if maxSpeed * 1.8 < speed then
    let scale := (maxSpeed * 1.8) / max speed 1e-4
    { c with vel := (c.vel.1 * scale, c.vel.2 * scale) }
  else c

/-- The `for _ in range(3)` relaxation loop of `step` (lines 166-168). -/
noncomputable def relaxPasses (w h dt : ℝ) :
    ℕ → List CellM × List CollisionEv → List CellM × List CollisionEv
  | 0, st => st
  | n + 1, st =>
    let r := resolveCollisionsPass w h st.1 st.2
    relaxPasses w h dt n (applyCohesion dt r.1, r.2)

/-- `PhysicsEngine.step(dt)` (lines 140-179): clamp `dt`, return early on an
empty world, steer, damp and integrate, run three relaxation passes, and
cap speeds. -/
noncomputable def engineStep (w h dt0 : ℝ) (cs : List CellM) :
    List CellM × List CollisionEv :=
  let dt := stepClampDt dt0
  if cs.isEmpty then (cs, [])
  else
    let cs1 := cs.map (applyControl dt)
    let cs2 := cs1.map (integrateCell w h dt)
    let r := relaxPasses w h dt 3 (cs2, [])
    (r.1.map capSpeed, r.2)

/-! ## Food (world.py lines 169-212) -/

/-- `max(0, int(self.config.food_count))` from `populate_food`. -/
def targetFoodCount (cfg : WorldConfigM) : ℕ := (max 0 cfg.foodCount).toNat

/-- `WorldState.populate_food` (lines 169-181): `popitem` evicts the most
recently inserted pellet while above target, then fresh pellets (value 5.0,
uuid ids and positions modelled by the `fresh` supply) are inserted until
the target is reached. -/
def populateFood (fresh : ℕ → FoodM) (foods : List FoodM) (target : ℕ) :
    List FoodM :=
  let kept := foods.take target
  kept ++ (List.range (target - kept.length)).map fresh

/-- One food pellet of `_handle_food_collisions` (lines 199-209): the first
cell (in dict order) overlapping the pellet within slop 3.0 eats it, growing
by `value * 0.1` and crediting its owner's score and `food_eaten`. -/
noncomputable def eatStep (st : WorldM × List String) (f : FoodM) :
    WorldM × List String :=
  let s := st.1
  match s.cells.find? (fun c => decide (collides c.pos c.radius f.pos 3.0)) with
  | some c =>
    let c' := { c with radius := c.radius + f.value * 0.1 }
    let s' : WorldM := { s with
      cells := setCell s.cells c',
      players := s.players.map (fun p =>
        if p.id == c.playerId then
          { p with score := p.score + f.value, foodEaten := p.foodEaten + 1 }
        else p) }
    (s', st.2 ++ [f.id])
  | none => st

/-- `WorldState._handle_food_collisions` (lines 197-212): sweep every pellet
against the (mutating) cells, drop the consumed pellets, then repopulate. -/
noncomputable def handleFoodCollisions (s : WorldM) (fresh : ℕ → FoodM) :
    WorldM :=
  let r := s.foods.foldl eatStep (s, [])
  let s2 : WorldM :=
    { r.1 with foods := r.1.foods.filter (fun f => decide (f.id ∉ r.2)) }
  { s2 with foods := populateFood fresh s2.foods (targetFoodCount s2.config) }

/-! ## Cell collisions and absorption sweep (world.py lines 214-249) -/

/-- One engine-reported collision event (lines 217-231): skip duplicates of
the same ordered pair, look both cells up fresh, and absorb when radii
differ by at least `ABSORB_RATIO`. -/
noncomputable def collisionAbsorbStep (now : ℝ)
    (st : WorldM × List (String × String)) (ev : CollisionEv) :
    WorldM × List (String × String) :=
  let s := st.1
  let key := (ev.firstId, ev.secondId)
  if key ∈ st.2 then st
  else
    let processed := st.2 ++ [key]
    match getCell s ev.firstId, getCell s ev.secondId with
    | some cell, some other =>
      if cell.playerId = other.playerId then (s, processed)
      else if other.radius * ABSORB_RATIO ≤ cell.radius then
        (absorbCells s cell other now, processed)
      else if cell.radius * ABSORB_RATIO ≤ other.radius then
        (absorbCells s other cell now, processed)
      else (s, processed)
    | _, _ => (s, processed)

/-- The inner loop of the fallback sweep (lines 239-249).  `vcell` is the
outer iteration's cell *object*: while the cell is alive it aliases the
dict entry, and when it wins an absorption the mutated value
(`absorbedWinner`) is carried forward; if it is absorbed it freezes at its
last state, exactly as the stale Python reference does. -/
noncomputable def sweepInner (now : ℝ) (s : WorldM) (vcell : CellM) :
    List String → WorldM
  | [] => s
  | oid :: tl =>
    match getCell s oid with
    | none => sweepInner now s vcell tl
    | some other =>
      if vcell.playerId = other.playerId then sweepInner now s vcell tl
      else if collides vcell.pos vcell.radius other.pos other.radius then
        if other.radius * ABSORB_RATIO ≤ vcell.radius then
          sweepInner now (absorbCells s vcell other now)
            (absorbedWinner s.config vcell other now) tl
        else if vcell.radius * ABSORB_RATIO ≤ other.radius then
          sweepInner now (absorbCells s other vcell now) vcell tl
        else sweepInner now s vcell tl
      else sweepInner now s vcell tl

/-- The outer loop of the fallback sweep (lines 235-249), iterating over a
snapshot of the cell ids and skipping cells that have since been removed. -/
noncomputable def sweepOuter (now : ℝ) (s : WorldM) :
    List String → WorldM
  | [] => s
  | cid :: rest =>
    match getCell s cid with
    | none => sweepOuter now s rest
    | some c => sweepOuter now (sweepInner now s c rest) rest

/-- `WorldState._handle_cell_collisions` (lines 214-249). -/
noncomputable def handleCellCollisions (s : WorldM) (evs : List CollisionEv)
    (now : ℝ) : WorldM :=
  let s1 := (evs.foldl (collisionAbsorbStep now) (s, [])).1
  sweepOuter now s1 (s1.cells.map CellM.id)

/-! ## Same-owner merges (world.py lines 251-286) -/

/-- The inner `while j` loop of `_handle_self_merges` for a fixed first
cell id `aId`: scan the later ids, skipping missing cells and pairs whose
merge timers have not elapsed, and merge overlapping pairs (the second
radius scaled by `MERGE_DISTANCE_FACTOR`).  Returns the updated world and
the number of merges performed. -/
noncomputable def selfMergeInner (now : ℝ) (aId : String) :
    WorldM → List String → WorldM × ℕ
  | s, [] => (s, 0)
  | s, b :: tl =>
    match getCell s aId, getCell s b with
    | some ca, some cb =>
      if now < ca.mergeReadyAt ∨ now < cb.mergeReadyAt then
        selfMergeInner now aId s tl
      else if collides ca.pos ca.radius cb.pos
          (cb.radius * MERGE_DISTANCE_FACTOR) then
        let r := selfMergeInner now aId (mergeCellsV s ca cb now) tl
        (r.1, r.2 + 1)
      else selfMergeInner now aId s tl
    | _, _ => selfMergeInner now aId s tl

/-- The outer `while i` loop of `_handle_self_merges`: ids whose cell has
vanished are skipped; merged ids are harmless in later passes because their
lookups fail. -/
noncomputable def selfMergeScan (now : ℝ) : WorldM → List String → WorldM × ℕ
  | s, [] => (s, 0)
  | s, a :: rest =>
    match getCell s a with
    | none => selfMergeScan now s rest
    | some _ =>
      let r := selfMergeInner now a s rest
      let r2 := selfMergeScan now r.1 rest
      (r2.1, r.2 + r2.2)

/-- `WorldState._handle_self_merges` (lines 251-286): for each owner (from a
snapshot of `player_cells`), run the scan over the ids that still denote
live cells, and, when any merge happened, rewrite the owner's id list to
the surviving ids. -/
noncomputable def handleSelfMerges (s : WorldM) (now : ℝ) : WorldM :=
  s.playerCells.foldl (fun st pe =>
    let ids := pe.2.filter (fun cid => (getCell st cid).isSome)
    if ids.length < 2 then st
    else
      let r := selfMergeScan now st ids
      if 0 < r.2 then
        let survivors := ids.filter (fun cid => (getCell r.1 cid).isSome)
        { r.1 with playerCells := aset r.1.playerCells pe.1 survivors }
      else r.1) s

/-! ## The tick (world.py lines 183-195) -/

/-- `WorldState.tick(dt)`: clamp `dt`, refresh every cell's engine target
from its owner's current target (`set_cell_target` clamps), step the
physics, resolve food, resolve cell collisions, resolve self merges. -/
noncomputable def tickW (s : WorldM) (dt0 now : ℝ) (fresh : ℕ → FoodM) :
    WorldM :=
  let dt := tickClampDt dt0
  let cellsT := s.cells.map (fun c =>
    let t := (alookup s.targets c.playerId).getD c.pos
    { c with target := clampPos s.config.width s.config.height t })
  let r := engineStep s.config.width s.config.height dt cellsT
  let s1 : WorldM := { s with cells := r.1 }
  let s2 := handleFoodCollisions s1 fresh
  let s3 := handleCellCollisions s2 r.2 now
  handleSelfMerges s3 now

/-! ## Snapshot fan-out (world.py lines 533-578) -/

/-- The `maxsize` of the queue created by `WorldManager.subscribe`
(line 538): `asyncio.Queue(maxsize=1)`. -/
def subscriberQueueCapacity : ℕ := 1

/-- The runner's delivery step for one subscriber queue (lines 563-569),
snapshots identified by their tick index: if the queue is full, the stale
snapshot is removed (`get_nowait` takes the oldest) before the current one
is put. -/
def publishSnapshot (cap : ℕ) (q : List ℕ) (snap : ℕ) : List ℕ :=
  if cap ≤ q.length then q.drop 1 ++ [snap] else q ++ [snap]

/-- Interleaved actions on one subscription: the runner publishing the next
tick's snapshot, or the subscriber awaiting `queue.get()`. -/
inductive SubAction where
  | tickPublish : SubAction
  | receive : SubAction

/-- A subscription's observable state: the runner's next tick index, the
queue contents, and the snapshots the subscriber has received so far. -/
structure SubState where
  nextTick : ℕ
  queue : List ℕ
  received : List ℕ

/-- The transition relation of the runner/subscriber pair: ticks are
produced in increasing order and pushed with drop-oldest discipline;
`queue.get()` on an empty queue blocks (delivers nothing). -/
def subStep (st : SubState) (a : SubAction) : SubState :=
  match a with
  | .tickPublish =>
    { st with
      nextTick := st.nextTick + 1,
      queue := publishSnapshot subscriberQueueCapacity st.queue st.nextTick }
  | .receive =>
    match st.queue with
    | [] => st
    | x :: rest =>
      { st with queue := rest, received := st.received ++ [x] }

/-- Run a subscription from the initial state under a given interleaving. -/
def subRun (acts : List SubAction) : SubState :=
  acts.foldl subStep { nextTick := 0, queue := [], received := [] }

/-! ## Helper lemmas about the dict embeddings -/

theorem find?_key_map_self {α : Type} (key : α → String) (f : α → α)
    (l : List α) (k : String) (hf : ∀ x, key x = k → key (f x) = k) :
    (l.map (fun x => if key x == k then f x else x)).find?
        (fun x => key x == k) =
      (l.find? (fun x => key x == k)).map f := by
  induction l with
  | nil => rfl
  | cons a t ih =>
    simp only [List.map_cons]
    by_cases ha : key a = k
    · have ha' : (key a == k) = true := by simp [ha]
      have hfa : (key (f a) == k) = true := by simp [hf a ha]
      rw [ha']
      simp only [if_true]
      rw [@List.find?_cons_of_pos _ (fun x => key x == k) (f a) _ hfa,
        @List.find?_cons_of_pos _ (fun x => key x == k) a _ ha']
      rfl
    · have ha' : (key a == k) = false := by simp [ha]
      rw [ha']
      simp only [Bool.false_eq_true, if_false]
      rw [@List.find?_cons_of_neg _ (fun x => key x == k) a _ (by simp [ha]),
        @List.find?_cons_of_neg _ (fun x => key x == k) a _ (by simp [ha])]
      exact ih

theorem find?_key_map_ne {α : Type} (key : α → String) (f : α → α)
    (l : List α) (k k' : String) (hf : ∀ x, key x = k → key (f x) = k)
    (hne : k' ≠ k) :
    (l.map (fun x => if key x == k then f x else x)).find?
        (fun x => key x == k') =
      l.find? (fun x => key x == k') := by
  have hkk : k ≠ k' := fun h => hne h.symm
  induction l with
  | nil => rfl
  | cons a t ih =>
    simp only [List.map_cons]
    by_cases ha : key a = k
    · have hfa : ¬((key (f a) == k') = true) := by simp [hf a ha, hkk]
      have hak : ¬((key a == k') = true) := by simp [ha, hkk]
      rw [show ((key a == k) : Bool) = true by simp [ha]]
      simp only [if_true]
      rw [@List.find?_cons_of_neg _ (fun x => key x == k') (f a) _ hfa,
        @List.find?_cons_of_neg _ (fun x => key x == k') a _ hak]
      exact ih
    · rw [show ((key a == k) : Bool) = false by simp [ha]]
      simp only [Bool.false_eq_true, if_false]
      by_cases hb : key a = k'
      · have hb' : (key a == k') = true := by simp [hb]
        rw [@List.find?_cons_of_pos _ (fun x => key x == k') a _ hb',
          @List.find?_cons_of_pos _ (fun x => key x == k') a _ hb']
      · have hb' : ¬((key a == k') = true) := by simp [hb]
        rw [@List.find?_cons_of_neg _ (fun x => key x == k') a _ hb',
          @List.find?_cons_of_neg _ (fun x => key x == k') a _ hb']
        exact ih

theorem find?_key_filter_self {α : Type} (key : α → String)
    (l : List α) (k : String) :
    (l.filter (fun x => !(key x == k))).find? (fun x => key x == k) = none := by
  rw [List.find?_eq_none]
  intro x hx
  have := List.of_mem_filter hx
  simpa using this

theorem find?_key_filter_ne {α : Type} (key : α → String)
    (l : List α) (k k' : String) (hne : k' ≠ k) :
    (l.filter (fun x => !(key x == k))).find? (fun x => key x == k') =
      l.find? (fun x => key x == k') := by
  have hkk : k ≠ k' := fun h => hne h.symm
  induction l with
  | nil => rfl
  | cons a t ih =>
    by_cases ha : key a = k
    · have hak : ¬((key a == k') = true) := by simp [ha, hkk]
      rw [show (a :: t).filter (fun x => !(key x == k)) =
          t.filter (fun x => !(key x == k)) by simp [List.filter_cons, ha]]
      rw [ih, @List.find?_cons_of_neg _ (fun x => key x == k') a _ hak]
    · rw [show (a :: t).filter (fun x => !(key x == k)) =
          a :: t.filter (fun x => !(key x == k)) by simp [List.filter_cons, ha]]
      by_cases hb : key a = k'
      · have hb' : (key a == k') = true := by simp [hb]
        rw [@List.find?_cons_of_pos _ (fun x => key x == k') a _ hb',
          @List.find?_cons_of_pos _ (fun x => key x == k') a _ hb']
      · have hb' : ¬((key a == k') = true) := by simp [hb]
        rw [@List.find?_cons_of_neg _ (fun x => key x == k') a _ hb',
          @List.find?_cons_of_neg _ (fun x => key x == k') a _ hb']
        exact ih

theorem find?_key_mem {α : Type} (key : α → String) (l : List α)
    (k : String) (x : α) (h : l.find? (fun y => key y == k) = some x) :
    x ∈ l ∧ key x = k := by
  refine ⟨List.mem_of_find?_eq_some h, ?_⟩
  have := List.find?_some h
  simpa using this

theorem alookup_aset_self {α : Type} (l : List (String × α)) (k : String)
    (v : α) : alookup (aset l k v) k = some v := by
  unfold aset
  split
  · rename_i h
    unfold alookup
    rw [find?_key_map_self (fun p => p.1) (fun _ => (k, v)) l k (fun _ _ => rfl)]
    obtain ⟨p, hp⟩ := Option.isSome_iff_exists.mp h
    rw [hp]
    rfl
  · rename_i h
    unfold alookup
    rw [List.find?_append, Option.not_isSome_iff_eq_none.mp h]
    simp

theorem alookup_aset_ne {α : Type} (l : List (String × α)) (k k' : String)
    (v : α) (hne : k' ≠ k) : alookup (aset l k v) k' = alookup l k' := by
  unfold aset
  split
  · unfold alookup
    rw [find?_key_map_ne (fun p => p.1) (fun _ => (k, v)) l k k'
      (fun _ _ => rfl) hne]
  · unfold alookup
    rw [List.find?_append]
    have hkk : k ≠ k' := fun h => hne h.symm
    have hk : (((k, v).1 == k') : Bool) = false := by simp [hkk]
    simp [List.find?_cons, hk]

theorem alookup_aremove_self {α : Type} (l : List (String × α)) (k : String) :
    alookup (aremove l k) k = none := by
  unfold alookup aremove
  rw [find?_key_filter_self (fun p => p.1) l k]
  rfl

theorem alookup_aremove_ne {α : Type} (l : List (String × α)) (k k' : String)
    (hne : k' ≠ k) : alookup (aremove l k) k' = alookup l k' := by
  unfold alookup aremove
  rw [find?_key_filter_ne (fun p => p.1) l k k' hne]

/-! ## Claim theorems -/

/-- C3: `split_player`'s impulse computation evaluates `BASE_TARGET_SPEED`,
`MIN_TARGET_SPEED`, `MASS_SPEED_EXPONENT` and `BOOST_SPEED_MULTIPLIER`,
all of which world.py imports from the physics module; the physics module
defines none of them (it defines `BASE_CELL_SPEED`, `MIN_CELL_SPEED`,
`MASS_SLOWDOWN` instead), so the `from .physics import (...)` statement of
world.py cannot resolve and loading the world module fails, leaving the
split impulse branch unexecutable as written. -/
theorem world_physics_import_fails :
    worldImportSucceeds = false ∧
    splitImpulseNames.all (fun n => worldImportsFromPhysics.contains n) = true ∧
    splitImpulseNames.all (fun n => !(physicsModuleTopLevel.contains n)) = true ∧
    physicsModuleTopLevel.contains "BASE_CELL_SPEED" = true ∧
    physicsModuleTopLevel.contains "MIN_CELL_SPEED" = true ∧
    physicsModuleTopLevel.contains "MASS_SLOWDOWN" = true := by
  refine ⟨?_, ?_, ?_, ?_, ?_, ?_⟩ <;> decide

/-- C4 counterexample: the spec says `step(dt)` clamps `dt` into
(0, 1/30]; in the code `MAX_DELTA_TIME = 1.0 / 20.0`, and the clamp maps
dt = 1/25 to 1/25, which exceeds 1/30. -/
theorem step_dt_clamp_not_one_thirtieth :
    MAX_DELTA_TIME ≠ 1 / 30 ∧
    stepClampDt (1 / 25) = 1 / 25 ∧ ¬(stepClampDt (1 / 25) ≤ 1 / 30) := by
  refine ⟨by norm_num [MAX_DELTA_TIME], ?_, ?_⟩ <;>
    norm_num [stepClampDt, MAX_DELTA_TIME]

/-- C4 amended: `step(dt)` clamps `dt` into [1e-4, MAX_DELTA_TIME] ⊆
(0, MAX_DELTA_TIME] with MAX_DELTA_TIME = 1/20 s, and `WorldState.tick`
applies the identical clamp (the runner additionally caps its raw frame
time at MAX_DELTA_TIME). -/
theorem step_dt_clamp_bounds (dt : ℝ) :
    0 < stepClampDt dt ∧ stepClampDt dt ≤ MAX_DELTA_TIME ∧
    tickClampDt dt = stepClampDt dt ∧ runnerClampDt dt ≤ MAX_DELTA_TIME ∧
    MAX_DELTA_TIME = 1 / 20 := by
  refine ⟨?_, ?_, rfl, min_le_right _ _, by norm_num [MAX_DELTA_TIME]⟩
  · have : (0 : ℝ) < 1e-4 := by norm_num
    exact lt_of_lt_of_le this (le_max_left _ _)
  · apply max_le
    · norm_num [MAX_DELTA_TIME]
    · exact min_le_right _ _

/-- C10 counterexample: the spec says a player's color is derived
deterministically from its id; in the code the color default factory draws
a fresh uuid, so two players constructed with the same id (seeds 0 and 1)
get different colors. -/
theorem player_color_not_id_determined :
    ¬ ∀ (seed1 seed2 : ℕ),
        (mkPlayer "alice" "tok" "p1" seed1).color =
          (mkPlayer "alice" "tok" "p1" seed2).color := by
  intro h
  have h01 := h 0 1
  simp only [mkPlayer] at h01
  exact absurd h01 (by decide)

/-- C10 amended: a player's color is an RGB byte triple unpacked from a
fresh `uuid4` draw at construction time (independent of the id): it equals
`defaultColor seed` for the construction's uuid seed, and each component
is at most 255. -/
theorem player_color_spec (name tok id : String) (seed : ℕ) :
    (mkPlayer name tok id seed).color = defaultColor seed ∧
    (defaultColor seed).1 ≤ 255 ∧ (defaultColor seed).2.1 ≤ 255 ∧
    (defaultColor seed).2.2 ≤ 255 :=
  ⟨rfl, Nat.and_le_right, Nat.and_le_right, Nat.and_le_right⟩

theorem sqrt_twentyfive : Real.sqrt 25 = 5 := by
  rw [show (25 : ℝ) = 5 ^ 2 by norm_num, Real.sqrt_sq]
  norm_num

/-- C9 counterexample: the spec says the split direction is deterministic
(angle from a per-world counter); the code draws the fallback angle from a
fresh `uuid4`, so two runs from the identical world state (target equal to
position) with uuid draws 0 and 90 choose directions (1,0) and (0,1). -/
theorem split_direction_not_deterministic :
    ¬ ∀ (seed1 seed2 : ℕ),
        splitDirection (100, 100) (100, 100) seed1 =
          splitDirection (100, 100) (100, 100) seed2 := by
  intro h
  have h09 := h 0 90
  norm_num [splitDirection, Real.sqrt_zero] at h09
  have h1 := h09.1
  rw [show (90 : ℝ) * Real.pi / 180 = Real.pi / 2 by ring,
    Real.cos_pi_div_two] at h1
  exact one_ne_zero h1

/-- C9 amended: when the target does not coincide with the cell position
(distance ≥ 1e-3) the split direction is the unit vector toward the target
and is independent of the uuid draw, hence deterministic; when target and
position coincide the direction comes from the angle
`(uuid4().int % 360)·π/180`, a fresh random draw rather than a per-world
counter, so identical world states may choose different directions. -/
theorem split_direction_spec (origin target : ℝ × ℝ) (seed1 seed2 : ℕ) :
    (¬ Real.sqrt ((target.1 - origin.1) ^ 2 + (target.2 - origin.2) ^ 2) <
        1e-3 →
      splitDirection origin target seed1 = splitDirection origin target seed2) ∧
    splitDirection origin origin seed1 =
      (Real.cos (((seed1 % 360 : ℕ) : ℝ) * Real.pi / 180),
       Real.sin (((seed1 % 360 : ℕ) : ℝ) * Real.pi / 180)) := by
  constructor
  · intro h
    simp only [splitDirection]
    rw [if_neg h, if_neg h]
  · have hc : Real.sqrt ((origin.1 - origin.1) ^ 2 +
        (origin.2 - origin.2) ^ 2) < 1e-3 := by
      norm_num [sub_self, Real.sqrt_zero]
    simp only [splitDirection]
    rw [if_pos hc]
    norm_num

/-- Witness for C9's amended theorem at a concrete state with a distinct
target: both uuid draws give the same direction. -/
theorem split_direction_spec_witness :
    splitDirection (0, 0) (3, 4) 5 = splitDirection (0, 0) (3, 4) 7 := by
  refine (split_direction_spec (0, 0) (3, 4) 5 7).1 ?_
  have h : (((3, 4) : ℝ × ℝ).1 - ((0, 0) : ℝ × ℝ).1) ^ 2 +
      (((3, 4) : ℝ × ℝ).2 - ((0, 0) : ℝ × ℝ).2) ^ 2 = 25 := by norm_num
  rw [h, sqrt_twentyfive]
  norm_num

theorem cellMaxSpeed_pos (radius : ℝ) : 0 < cellMaxSpeed radius :=
  lt_of_lt_of_le (by norm_num [MIN_CELL_SPEED]) (le_max_left _ _)

/-- The chase velocity has magnitude exactly `cellMaxSpeed` whenever the
target is farther than the 1e-4 threshold. -/
theorem vecNorm_desiredVelocity (pos target : ℝ × ℝ) (radius : ℝ)
    (h : 1e-4 < Real.sqrt ((target.1 - pos.1) ^ 2 + (target.2 - pos.2) ^ 2)) :
    vecNorm (desiredVelocity pos target radius) = cellMaxSpeed radius := by
  have hd0 : (0 : ℝ) <
      Real.sqrt ((target.1 - pos.1) ^ 2 + (target.2 - pos.2) ^ 2) :=
    lt_trans (by norm_num) h
  have hdsq : Real.sqrt ((target.1 - pos.1) ^ 2 + (target.2 - pos.2) ^ 2) ^ 2 =
      (target.1 - pos.1) ^ 2 + (target.2 - pos.2) ^ 2 :=
    Real.sq_sqrt (by positivity)
  have hms : 0 ≤ cellMaxSpeed radius := le_of_lt (cellMaxSpeed_pos radius)
  simp only [desiredVelocity, vecNorm]
  rw [if_pos h]
  have hkey : ((target.1 - pos.1) /
        Real.sqrt ((target.1 - pos.1) ^ 2 + (target.2 - pos.2) ^ 2) *
        cellMaxSpeed radius) ^ 2 +
      ((target.2 - pos.2) /
        Real.sqrt ((target.1 - pos.1) ^ 2 + (target.2 - pos.2) ^ 2) *
        cellMaxSpeed radius) ^ 2 = cellMaxSpeed radius ^ 2 := by
    have hdne : Real.sqrt ((target.1 - pos.1) ^ 2 + (target.2 - pos.2) ^ 2) ≠ 0 :=
      ne_of_gt hd0
    have e1 : ((target.1 - pos.1) /
          Real.sqrt ((target.1 - pos.1) ^ 2 + (target.2 - pos.2) ^ 2) *
          cellMaxSpeed radius) ^ 2 +
        ((target.2 - pos.2) /
          Real.sqrt ((target.1 - pos.1) ^ 2 + (target.2 - pos.2) ^ 2) *
          cellMaxSpeed radius) ^ 2 =
        ((target.1 - pos.1) ^ 2 + (target.2 - pos.2) ^ 2) /
          Real.sqrt ((target.1 - pos.1) ^ 2 + (target.2 - pos.2) ^ 2) ^ 2 *
          cellMaxSpeed radius ^ 2 := by ring
    rw [e1, hdsq, div_self ?_, one_mul]
    intro hz
    rw [hz, Real.sqrt_zero] at hd0
    exact lt_irrefl 0 hd0
  rw [hkey, Real.sqrt_sq hms]

/-- C5 counterexample: the spec's chase speed is
`max(48, 520/mass^0.42)`, which at radius 1 (mass 1) gives 520; the code's
chase speed at radius 1 is `max(45, min(260, 260 − 1·0.45)) = 259.55`. -/
theorem control_speed_not_mass_power :
    vecNorm (desiredVelocity (0, 0) (3, 4) 1) = 259.55 ∧
    specClaimedSpeed 1 = 520 ∧ (259.55 : ℝ) ≠ 520 := by
  refine ⟨?_, ?_, by norm_num⟩
  · rw [vecNorm_desiredVelocity (0, 0) (3, 4) 1 ?_]
    · norm_num [cellMaxSpeed, MIN_CELL_SPEED, BASE_CELL_SPEED, MASS_SLOWDOWN,
        max_def, min_def]
    · have h : (((3, 4) : ℝ × ℝ).1 - ((0, 0) : ℝ × ℝ).1) ^ 2 +
          (((3, 4) : ℝ × ℝ).2 - ((0, 0) : ℝ × ℝ).2) ^ 2 = 25 := by norm_num
      rw [h, sqrt_twentyfive]
      norm_num
  · have h1 : (max ((1 : ℝ) ^ 2) 1) = 1 := by norm_num
    rw [specClaimedSpeed, h1, Real.one_rpow]
    norm_num [MIN_TARGET_SPEED, BASE_TARGET_SPEED, max_def]

/-- C5 amended: the chase speed is the radius-linear formula
`max(MIN_CELL_SPEED, min(BASE_CELL_SPEED, BASE_CELL_SPEED −
radius·MASS_SLOWDOWN))` with BASE = 260, MIN = 45, slowdown 0.45 (not a
mass power law), and the steering direction is the unit vector from
position to target, zero when the target is within 1e-4 (not 1e-6). -/
theorem control_speed_spec (pos target : ℝ × ℝ) (radius : ℝ) :
    (1e-4 < Real.sqrt ((target.1 - pos.1) ^ 2 + (target.2 - pos.2) ^ 2) →
      vecNorm (desiredVelocity pos target radius) =
        max 45 (min 260 (260 - radius * 0.45))) ∧
    (¬ 1e-4 < Real.sqrt ((target.1 - pos.1) ^ 2 + (target.2 - pos.2) ^ 2) →
      desiredVelocity pos target radius = (0, 0)) := by
  constructor
  · intro h
    rw [vecNorm_desiredVelocity pos target radius h]
    norm_num [cellMaxSpeed, MIN_CELL_SPEED, BASE_CELL_SPEED, MASS_SLOWDOWN]
  · intro h
    simp only [desiredVelocity]
    rw [if_neg h]

/-- Witness for C5's amended theorem at position (0,0), target (3,4),
radius 1. -/
theorem control_speed_spec_witness :
    vecNorm (desiredVelocity (0, 0) (3, 4) 1) =
      max 45 (min 260 (260 - 1 * 0.45)) := by
  refine (control_speed_spec (0, 0) (3, 4) 1).1 ?_
  have h : (((3, 4) : ℝ × ℝ).1 - ((0, 0) : ℝ × ℝ).1) ^ 2 +
      (((3, 4) : ℝ × ℝ).2 - ((0, 0) : ℝ × ℝ).2) ^ 2 = 25 := by norm_num
  rw [h, sqrt_twentyfive]
  norm_num

/-! ## C8: drop-oldest fan-out invariants -/

/-- The induction invariant for a subscription run: everything received is
strictly older than everything queued, and both are strictly below the
runner's next tick index and internally sorted. -/
def subInv (st : SubState) : Prop :=
  List.Sorted (· < ·) st.received ∧ List.Sorted (· < ·) st.queue ∧
  (∀ x ∈ st.queue, x < st.nextTick) ∧
  (∀ y ∈ st.received, y < st.nextTick) ∧
  (∀ y ∈ st.received, ∀ x ∈ st.queue, y < x)

theorem subStep_inv (st : SubState) (a : SubAction) (h : subInv st) :
    subInv (subStep st a) := by
  obtain ⟨hr, hq, hqn, hrn, hrq⟩ := h
  cases a with
  | tickPublish =>
    refine ⟨hr, ?_, ?_, ?_, ?_⟩ <;>
      simp only [subStep, publishSnapshot, subscriberQueueCapacity]
    · split
      · rw [List.Sorted, List.pairwise_append]
        refine ⟨List.Pairwise.sublist (List.drop_sublist 1 _) hq,
          List.pairwise_singleton _ _, ?_⟩
        intro x hx y hy
        rw [List.mem_singleton] at hy
        subst hy
        exact hqn x (List.mem_of_mem_drop hx)
      · rw [List.Sorted, List.pairwise_append]
        refine ⟨hq, List.pairwise_singleton _ _, ?_⟩
        intro x hx y hy
        rw [List.mem_singleton] at hy
        subst hy
        exact hqn x hx
    · intro x hx
      split at hx <;> rw [List.mem_append, List.mem_singleton] at hx <;>
        rcases hx with hx | hx
      · exact Nat.lt_succ_of_lt (hqn x (List.mem_of_mem_drop hx))
      · subst hx
        exact Nat.lt_succ_self _
      · exact Nat.lt_succ_of_lt (hqn x hx)
      · subst hx
        exact Nat.lt_succ_self _
    · intro y hy
      exact Nat.lt_succ_of_lt (hrn y hy)
    · intro y hy x hx
      split at hx <;> rw [List.mem_append, List.mem_singleton] at hx <;>
        rcases hx with hx | hx
      · exact hrq y hy x (List.mem_of_mem_drop hx)
      · subst hx
        exact hrn y hy
      · exact hrq y hy x hx
      · subst hx
        exact hrn y hy
  | receive =>
    cases hqe : st.queue with
    | nil =>
      have hred : subStep st .receive = st := by simp [subStep, hqe]
      rw [hred]
      exact ⟨hr, hq, hqn, hrn, hrq⟩
    | cons v rest =>
      rw [hqe] at hq hqn hrq
      rw [List.sorted_cons] at hq
      have hred : subStep st .receive =
          { st with queue := rest, received := st.received ++ [v] } := by
        simp [subStep, hqe]
      rw [hred]
      refine ⟨?_, hq.2, ?_, ?_, ?_⟩
      · show List.Sorted (· < ·) (st.received ++ [v])
        rw [List.Sorted, List.pairwise_append]
        refine ⟨hr, List.pairwise_singleton _ _, ?_⟩
        intro a ha b hb
        rw [List.mem_singleton] at hb
        rw [hb]
        exact hrq a ha v (List.mem_cons_self v rest)
      · show ∀ z ∈ rest, z < st.nextTick
        intro z hz
        exact hqn z (List.mem_cons_of_mem v hz)
      · show ∀ y ∈ st.received ++ [v], y < st.nextTick
        intro y hy
        rw [List.mem_append, List.mem_singleton] at hy
        rcases hy with hy | hy
        · exact hrn y hy
        · rw [hy]
          exact hqn v (List.mem_cons_self v rest)
      · show ∀ y ∈ st.received ++ [v], ∀ z ∈ rest, y < z
        intro y hy z hz
        rw [List.mem_append, List.mem_singleton] at hy
        rcases hy with hy | hy
        · exact hrq y hy z (List.mem_cons_of_mem v hz)
        · subst hy
          exact hq.1 z hz

theorem subRun_inv (acts : List SubAction) :
    subInv (subRun acts) := by
  have hstep : ∀ (l : List SubAction) (st : SubState), subInv st →
      subInv (l.foldl subStep st) := by
    intro l
    induction l with
    | nil => exact fun st h => h
    | cons a t ih => exact fun st h => ih _ (subStep_inv st a h)
  exact hstep acts _ ⟨by simp, by simp, by simp, by simp, by simp⟩

/-- C8: the subscriber channel created by `subscribe` has capacity exactly
1; the runner applies drop-oldest delivery (a full channel has its stale
snapshot discarded and replaced by the current one); consequently the
sequence of snapshots a subscriber receives is in nondecreasing (in fact
increasing) tick order under every interleaving — snapshots may be skipped
but never reordered. -/
theorem snapshot_fanout_monotone :
    subscriberQueueCapacity = 1 ∧
    (∀ (stale snap : ℕ),
      publishSnapshot subscriberQueueCapacity [stale] snap = [snap]) ∧
    ∀ acts : List SubAction,
      List.Sorted (· ≤ ·) (subRun acts).received := by
  refine ⟨rfl, fun stale snap => rfl, fun acts => ?_⟩
  exact (subRun_inv acts).1.imp (fun h => le_of_lt h)

/-! ## C6: foods and config preservation lemmas -/

theorem populateFood_length (fresh : ℕ → FoodM) (foods : List FoodM)
    (target : ℕ) : (populateFood fresh foods target).length = target := by
  simp only [populateFood, List.length_append, List.length_take,
    List.length_map, List.length_range]
  omega

theorem removeCellW_pres (s : WorldM) (cid : String) :
    (removeCellW s cid).foods = s.foods ∧
    (removeCellW s cid).config = s.config := by
  unfold removeCellW
  split <;> exact ⟨rfl, rfl⟩

theorem absorbCells_pres (s : WorldM) (winner loser : CellM) (now : ℝ) :
    (absorbCells s winner loser now).foods = s.foods ∧
    (absorbCells s winner loser now).config = s.config := by
  simp only [absorbCells]
  constructor <;>
    · repeat' split
      all_goals
        simp only [(removeCellW_pres _ _).1, (removeCellW_pres _ _).2]

theorem mergeCellsV_pres (s : WorldM) (primary secondary : CellM) (now : ℝ) :
    (mergeCellsV s primary secondary now).foods = s.foods ∧
    (mergeCellsV s primary secondary now).config = s.config := by
  simp only [mergeCellsV]
  constructor <;>
    simp only [(removeCellW_pres _ _).1, (removeCellW_pres _ _).2]

theorem collisionAbsorbStep_pres (now : ℝ)
    (st : WorldM × List (String × String)) (ev : CollisionEv) :
    ((collisionAbsorbStep now st ev).1).foods = st.1.foods ∧
    ((collisionAbsorbStep now st ev).1).config = st.1.config := by
  simp only [collisionAbsorbStep]
  constructor <;>
    · repeat' split
      all_goals
        simp only [(absorbCells_pres _ _ _ _).1, (absorbCells_pres _ _ _ _).2]

theorem foldl_collisionAbsorbStep_pres (now : ℝ) (evs : List CollisionEv)
    (st : WorldM × List (String × String)) :
    ((evs.foldl (collisionAbsorbStep now) st).1).foods = st.1.foods ∧
    ((evs.foldl (collisionAbsorbStep now) st).1).config = st.1.config := by
  induction evs generalizing st with
  | nil => exact ⟨rfl, rfl⟩
  | cons e t ih =>
    simp only [List.foldl_cons]
    refine ⟨?_, ?_⟩
    · rw [(ih _).1, (collisionAbsorbStep_pres now st e).1]
    · rw [(ih _).2, (collisionAbsorbStep_pres now st e).2]

theorem sweepInner_pres (now : ℝ) (ids : List String) (s : WorldM)
    (vcell : CellM) :
    (sweepInner now s vcell ids).foods = s.foods ∧
    (sweepInner now s vcell ids).config = s.config := by
  induction ids generalizing s vcell with
  | nil => exact ⟨rfl, rfl⟩
  | cons oid tl ih =>
    simp only [sweepInner]
    repeat' split
    all_goals
      first
      | exact ih s vcell
      | · constructor
          · rw [(ih _ _).1, (absorbCells_pres _ _ _ _).1]
          · rw [(ih _ _).2, (absorbCells_pres _ _ _ _).2]

theorem sweepOuter_pres (now : ℝ) (ids : List String) (s : WorldM) :
    (sweepOuter now s ids).foods = s.foods ∧
    (sweepOuter now s ids).config = s.config := by
  induction ids generalizing s with
  | nil => exact ⟨rfl, rfl⟩
  | cons cid rest ih =>
    simp only [sweepOuter]
    split
    · exact ih s
    · constructor
      · rw [(ih _).1, (sweepInner_pres _ _ _ _).1]
      · rw [(ih _).2, (sweepInner_pres _ _ _ _).2]

theorem handleCellCollisions_pres (s : WorldM) (evs : List CollisionEv)
    (now : ℝ) :
    (handleCellCollisions s evs now).foods = s.foods ∧
    (handleCellCollisions s evs now).config = s.config := by
  simp only [handleCellCollisions]
  constructor
  · rw [(sweepOuter_pres _ _ _).1, (foldl_collisionAbsorbStep_pres _ _ _).1]
  · rw [(sweepOuter_pres _ _ _).2, (foldl_collisionAbsorbStep_pres _ _ _).2]

theorem selfMergeInner_pres (now : ℝ) (aId : String) (ids : List String)
    (s : WorldM) :
    ((selfMergeInner now aId s ids).1).foods = s.foods ∧
    ((selfMergeInner now aId s ids).1).config = s.config := by
  induction ids generalizing s with
  | nil => exact ⟨rfl, rfl⟩
  | cons b tl ih =>
    simp only [selfMergeInner]
    repeat' split
    all_goals
      first
      | exact ih s
      | · constructor
          · rw [(ih _).1, (mergeCellsV_pres _ _ _ _).1]
          · rw [(ih _).2, (mergeCellsV_pres _ _ _ _).2]

theorem selfMergeScan_pres (now : ℝ) (ids : List String) (s : WorldM) :
    ((selfMergeScan now s ids).1).foods = s.foods ∧
    ((selfMergeScan now s ids).1).config = s.config := by
  induction ids generalizing s with
  | nil => exact ⟨rfl, rfl⟩
  | cons a rest ih =>
    simp only [selfMergeScan]
    split
    · exact ih s
    · constructor
      · rw [(ih _).1, (selfMergeInner_pres _ _ _ _).1]
      · rw [(ih _).2, (selfMergeInner_pres _ _ _ _).2]

theorem handleSelfMerges_pres (s : WorldM) (now : ℝ) :
    (handleSelfMerges s now).foods = s.foods ∧
    (handleSelfMerges s now).config = s.config := by
  simp only [handleSelfMerges]
  have hstep : ∀ (l : List (String × List String)) (st : WorldM),
      ((l.foldl (fun st pe =>
        let ids := pe.2.filter (fun cid => (getCell st cid).isSome)
        if ids.length < 2 then st
        else
          let r := selfMergeScan now st ids
          if 0 < r.2 then
            let survivors := ids.filter (fun cid => (getCell r.1 cid).isSome)
            { r.1 with playerCells := aset r.1.playerCells pe.1 survivors }
          else r.1) st)).foods = st.foods ∧
      ((l.foldl (fun st pe =>
        let ids := pe.2.filter (fun cid => (getCell st cid).isSome)
        if ids.length < 2 then st
        else
          let r := selfMergeScan now st ids
          if 0 < r.2 then
            let survivors := ids.filter (fun cid => (getCell r.1 cid).isSome)
            { r.1 with playerCells := aset r.1.playerCells pe.1 survivors }
          else r.1) st)).config = st.config := by
    intro l
    induction l with
    | nil => exact fun st => ⟨rfl, rfl⟩
    | cons pe t ih =>
      intro st
      simp only [List.foldl_cons]
      constructor
      · rw [(ih _).1]
        repeat' split
        all_goals simp only [(selfMergeScan_pres _ _ _).1]
      · rw [(ih _).2]
        repeat' split
        all_goals simp only [(selfMergeScan_pres _ _ _).2]
  exact hstep s.playerCells s

theorem eatStep_pres (st : WorldM × List String) (f : FoodM) :
    ((eatStep st f).1).foods = st.1.foods ∧
    ((eatStep st f).1).config = st.1.config := by
  simp only [eatStep]
  split <;> exact ⟨rfl, rfl⟩

theorem foldl_eatStep_pres (foods : List FoodM) (st : WorldM × List String) :
    ((foods.foldl eatStep st).1).foods = st.1.foods ∧
    ((foods.foldl eatStep st).1).config = st.1.config := by
  induction foods generalizing st with
  | nil => exact ⟨rfl, rfl⟩
  | cons f t ih =>
    simp only [List.foldl_cons]
    refine ⟨?_, ?_⟩
    · rw [(ih _).1, (eatStep_pres st f).1]
    · rw [(ih _).2, (eatStep_pres st f).2]

theorem handleFoodCollisions_spec (s : WorldM) (fresh : ℕ → FoodM) :
    (handleFoodCollisions s fresh).foods.length = targetFoodCount s.config ∧
    (handleFoodCollisions s fresh).config = s.config := by
  simp only [handleFoodCollisions]
  rw [populateFood_length]
  exact ⟨by rw [(foldl_eatStep_pres _ _).2], by rw [(foldl_eatStep_pres _ _).2]⟩

/-- C6: immediately after a tick (food consumption, then `populate_food`,
then absorption and merge passes that never touch `foods`), the number of
food pellets equals `config.food_count` whenever that configured count is
nonnegative (it is a Python `int`; `populate_food` targets
`max(0, int(food_count))`). -/
theorem tick_food_count (s : WorldM) (dt now : ℝ) (fresh : ℕ → FoodM)
    (h : 0 ≤ s.config.foodCount) :
    ((tickW s dt now fresh).foods.length : ℤ) = s.config.foodCount := by
  simp only [tickW]
  rw [(handleSelfMerges_pres _ _).1, (handleCellCollisions_pres _ _ _).1,
    (handleFoodCollisions_spec _ _).1]
  simp only [targetFoodCount]
  omega

/-- Witness for C6 at a concrete world with food_count = 2. -/
theorem tick_food_count_witness :
    ((tickW
      { config := { name := "w", width := 10, height := 10, tickRate := 30,
                    foodCount := 2, snapshotInterval := 10 },
        players := [], cells := [], playerCells := [], foods := [],
        targets := [], events := [], splitCooldowns := [] }
      (1 / 30) 0 (fun _ => { id := "f", pos := (1, 1), value := 5 })).foods.length
      : ℤ) = 2 := by
  have h := tick_food_count
    { config := { name := "w", width := 10, height := 10, tickRate := 30,
                  foodCount := 2, snapshotInterval := 10 },
      players := [], cells := [], playerCells := [], foods := [],
      targets := [], events := [], splitCooldowns := [] }
    (1 / 30) 0 (fun _ => { id := "f", pos := (1, 1), value := 5 })
    (by norm_num)
  exact h

/-! ## C7: positions stay inside the world rectangle -/

/-- Membership of a point in the world rectangle [0,w] × [0,h]. -/
def inRect (w h : ℝ) (p : ℝ × ℝ) : Prop :=
  0 ≤ p.1 ∧ p.1 ≤ w ∧ 0 ≤ p.2 ∧ p.2 ≤ h

/-- Every cell of the world lies inside the configured rectangle. -/
def cellsInBounds (s : WorldM) : Prop :=
  ∀ c ∈ s.cells, inRect s.config.width s.config.height c.pos

theorem clampPos_inRect (w h : ℝ) (p : ℝ × ℝ) (hw : 0 ≤ w) (hh : 0 ≤ h) :
    inRect w h (clampPos w h p) := by
  refine ⟨le_max_left _ _, ?_, le_max_left _ _, ?_⟩
  · exact max_le hw (min_le_left _ _)
  · exact max_le hh (min_le_left _ _)

theorem clampPos_eq_self (w h : ℝ) (p : ℝ × ℝ) (hp : inRect w h p) :
    clampPos w h p = p := by
  obtain ⟨h1, h2, h3, h4⟩ := hp
  simp only [clampPos]
  rw [min_eq_right h2, max_eq_right h1, min_eq_right h4, max_eq_right h3]

theorem mem_setCell {cells : List CellM} {c x : CellM}
    (hx : x ∈ setCell cells c) : x ∈ cells ∨ x = c := by
  simp only [setCell, List.mem_map] at hx
  obtain ⟨b, hb, hbx⟩ := hx
  by_cases h : (b.id == c.id) = true
  · rw [if_pos h] at hbx
    exact Or.inr hbx.symm
  · rw [if_neg h] at hbx
    exact Or.inl (hbx ▸ hb)

theorem applyControl_pos (dt : ℝ) (c : CellM) :
    (applyControl dt c).pos = c.pos := by
  simp only [applyControl]
  split <;> rfl

theorem integrateCell_inRect (w h dt : ℝ) (c : CellM) (hw : 0 ≤ w)
    (hh : 0 ≤ h) : inRect w h (integrateCell w h dt c).pos := by
  simp only [integrateCell]
  exact clampPos_inRect w h _ hw hh

theorem resolveOppVel_pos (first1 second1 : CellM) (n : ℝ × ℝ) :
    (resolveOppVel first1 second1 n).1.pos = first1.pos ∧
    (resolveOppVel first1 second1 n).2.pos = second1.pos := by
  simp only [resolveOppVel]
  exact ⟨trivial, trivial⟩

theorem resolvePair_inRect (w h : ℝ) (first second : CellM) (hw : 0 ≤ w)
    (hh : 0 ≤ h) (h1 : inRect w h first.pos) (h2 : inRect w h second.pos) :
    inRect w h (resolvePair w h first second).1.pos ∧
    inRect w h (resolvePair w h first second).2.1.pos := by
  simp only [resolvePair]
  repeat' split
  all_goals
    try exact ⟨h1, h2⟩
  all_goals
    exact ⟨clampPos_inRect w h _ hw hh, clampPos_inRect w h _ hw hh⟩

set_option maxHeartbeats 4000000 in
theorem resolveStep_inRect (w h : ℝ) (st : List CellM × List CollisionEv)
    (ij : ℕ × ℕ) (hw : 0 ≤ w) (hh : 0 ≤ h)
    (hs : ∀ c ∈ st.1, inRect w h c.pos) :
    ∀ c ∈ (resolveStep w h st ij).1, inRect w h c.pos := by
  simp only [resolveStep]
  split
  · rename_i first second hfirst hsecond
    intro c hc
    rcases List.mem_or_eq_of_mem_set hc with hc | hc
    · rcases List.mem_or_eq_of_mem_set hc with hc | hc
      · exact hs c hc
      · subst hc
        exact (resolvePair_inRect w h first second hw hh
          (hs _ (List.get?_mem hfirst)) (hs _ (List.get?_mem hsecond))).1
    · subst hc
      exact (resolvePair_inRect w h first second hw hh
        (hs _ (List.get?_mem hfirst)) (hs _ (List.get?_mem hsecond))).2
  · exact hs

theorem foldl_resolveStep_inRect (w h : ℝ) (pairs : List (ℕ × ℕ))
    (st : List CellM × List CollisionEv) (hw : 0 ≤ w) (hh : 0 ≤ h)
    (hs : ∀ c ∈ st.1, inRect w h c.pos) :
    ∀ c ∈ (pairs.foldl (resolveStep w h) st).1, inRect w h c.pos := by
  induction pairs generalizing st with
  | nil => exact hs
  | cons ij t ih =>
    simp only [List.foldl_cons]
    exact ih _ (resolveStep_inRect w h st ij hw hh hs)

theorem resolveCollisionsPass_inRect (w h : ℝ) (cs : List CellM)
    (evs : List CollisionEv) (hw : 0 ≤ w) (hh : 0 ≤ h)
    (hs : ∀ c ∈ cs, inRect w h c.pos) :
    ∀ c ∈ (resolveCollisionsPass w h cs evs).1, inRect w h c.pos := by
  simp only [resolveCollisionsPass]
  exact foldl_resolveStep_inRect w h _ _ hw hh hs

theorem applyCohesion_pos (dt : ℝ) (cs : List CellM) :
    ∀ c ∈ applyCohesion dt cs, ∃ b ∈ cs, c.pos = b.pos := by
  intro c hc
  simp only [applyCohesion, List.mem_map] at hc
  obtain ⟨b, hb, hbc⟩ := hc
  refine ⟨b, hb, ?_⟩
  rw [← hbc]
  repeat' split
  all_goals rfl

theorem relaxPasses_inRect (w h dt : ℝ) (n : ℕ)
    (st : List CellM × List CollisionEv) (hw : 0 ≤ w) (hh : 0 ≤ h)
    (hs : ∀ c ∈ st.1, inRect w h c.pos) :
    ∀ c ∈ (relaxPasses w h dt n st).1, inRect w h c.pos := by
  induction n generalizing st with
  | zero => exact hs
  | succ m ih =>
    simp only [relaxPasses]
    apply ih
    intro c hc
    obtain ⟨b, hb, hbc⟩ := applyCohesion_pos dt _ c hc
    rw [hbc]
    exact resolveCollisionsPass_inRect w h st.1 st.2 hw hh hs b hb

theorem capSpeed_pos (c : CellM) : (capSpeed c).pos = c.pos := by
  simp only [capSpeed]
  split <;> rfl

set_option maxHeartbeats 8000000 in
theorem engineStep_inRect (w h dt : ℝ) (cs : List CellM) (hw : 0 ≤ w)
    (hh : 0 ≤ h) : ∀ c ∈ (engineStep w h dt cs).1, inRect w h c.pos := by
  simp only [engineStep]
  split
  · rename_i hempty
    rw [List.isEmpty_iff] at hempty
    subst hempty
    intro c hc
    exact absurd hc (List.not_mem_nil c)
  · intro c hc
    rw [List.mem_map] at hc
    obtain ⟨b, hb, hbc⟩ := hc
    rw [← hbc, capSpeed_pos]
    refine relaxPasses_inRect w h _ 3 _ hw hh ?_ b hb
    intro d hd
    rw [List.mem_map] at hd
    obtain ⟨e, _, hed⟩ := hd
    rw [← hed]
    exact integrateCell_inRect w h _ e hw hh

theorem removeCellW_cells_subset {s : WorldM} {cid : String} {x : CellM}
    (hx : x ∈ (removeCellW s cid).cells) : x ∈ s.cells := by
  unfold removeCellW at hx
  split at hx
  · exact hx
  · exact List.mem_of_mem_filter hx

theorem absorbedWinner_inRect (cfg : WorldConfigM) (winner loser : CellM)
    (now : ℝ) (hw : 0 ≤ cfg.width) (hh : 0 ≤ cfg.height)
    (hwin : inRect cfg.width cfg.height winner.pos) :
    inRect cfg.width cfg.height (absorbedWinner cfg winner loser now).pos := by
  simp only [absorbedWinner]
  split
  · exact clampPos_inRect _ _ _ hw hh
  · exact hwin

theorem absorbCells_cells_subset {s : WorldM} {winner loser : CellM}
    {now : ℝ} {x : CellM} (hx : x ∈ (absorbCells s winner loser now).cells) :
    x ∈ setCell s.cells (absorbedWinner s.config winner loser now) := by
  simp only [absorbCells] at hx
  repeat' split at hx
  all_goals exact removeCellW_cells_subset hx

theorem absorbCells_inBounds (s : WorldM) (winner loser : CellM) (now : ℝ)
    (hw : 0 ≤ s.config.width) (hh : 0 ≤ s.config.height)
    (hs : cellsInBounds s)
    (hwin : inRect s.config.width s.config.height winner.pos) :
    cellsInBounds (absorbCells s winner loser now) := by
  intro x hx
  rw [(absorbCells_pres s winner loser now).2]
  rcases mem_setCell (absorbCells_cells_subset hx) with h | h
  · exact hs x h
  · rw [h]
    exact absorbedWinner_inRect s.config winner loser now hw hh hwin

theorem mergeCellsV_cells_subset {s : WorldM} {primary secondary : CellM}
    {now : ℝ} {x : CellM}
    (hx : x ∈ (mergeCellsV s primary secondary now).cells) :
    x ∈ s.cells ∨
      inRect s.config.width s.config.height x.pos ∨
      x.pos = primary.pos ∨
      (∃ p : ℝ × ℝ, x.pos = clampPos s.config.width s.config.height p) := by
  simp only [mergeCellsV] at hx
  have hx' := removeCellW_cells_subset (s := _) hx
  rcases mem_setCell hx' with h | h
  · exact Or.inl h
  · subst h
    split
    · exact Or.inr (Or.inr (Or.inr ⟨_, rfl⟩))
    · exact Or.inr (Or.inr (Or.inl rfl))

theorem mergeCellsV_inBounds (s : WorldM) (primary secondary : CellM)
    (now : ℝ) (hw : 0 ≤ s.config.width) (hh : 0 ≤ s.config.height)
    (hs : cellsInBounds s)
    (hp : inRect s.config.width s.config.height primary.pos) :
    cellsInBounds (mergeCellsV s primary secondary now) := by
  intro x hx
  rw [(mergeCellsV_pres s primary secondary now).2]
  rcases mergeCellsV_cells_subset hx with h | h | h | ⟨p, h⟩
  · exact hs x h
  · exact h
  · rw [h]
    exact hp
  · rw [h]
    exact clampPos_inRect _ _ _ hw hh

theorem getCell_mem {s : WorldM} {cid : String} {c : CellM}
    (h : getCell s cid = some c) : c ∈ s.cells ∧ c.id = cid := by
  unfold getCell at h
  exact find?_key_mem (fun x => x.id) s.cells cid c h

theorem collisionAbsorbStep_inBounds (now : ℝ)
    (st : WorldM × List (String × String)) (ev : CollisionEv)
    (hw : 0 ≤ st.1.config.width) (hh : 0 ≤ st.1.config.height)
    (hs : cellsInBounds st.1) :
    cellsInBounds (collisionAbsorbStep now st ev).1 := by
  simp only [collisionAbsorbStep]
  split
  · exact hs
  · split
    · rename_i cell other hcell hother
      split
      · exact hs
      · split
        · exact absorbCells_inBounds _ _ _ _ hw hh hs
            (hs _ (getCell_mem hcell).1)
        · split
          · exact absorbCells_inBounds _ _ _ _ hw hh hs
              (hs _ (getCell_mem hother).1)
          · exact hs
    · exact hs

theorem foldl_collisionAbsorbStep_inBounds (now : ℝ)
    (evs : List CollisionEv) (st : WorldM × List (String × String))
    (hw : 0 ≤ st.1.config.width) (hh : 0 ≤ st.1.config.height)
    (hs : cellsInBounds st.1) :
    cellsInBounds (evs.foldl (collisionAbsorbStep now) st).1 := by
  induction evs generalizing st with
  | nil => exact hs
  | cons e t ih =>
    simp only [List.foldl_cons]
    refine ih _ ?_ ?_ ?_
    · rw [(collisionAbsorbStep_pres now st e).2]
      exact hw
    · rw [(collisionAbsorbStep_pres now st e).2]
      exact hh
    · exact collisionAbsorbStep_inBounds now st e hw hh hs

theorem sweepInner_inBounds (now : ℝ) (ids : List String) (s : WorldM)
    (vcell : CellM) (hw : 0 ≤ s.config.width) (hh : 0 ≤ s.config.height)
    (hs : cellsInBounds s)
    (hv : inRect s.config.width s.config.height vcell.pos) :
    cellsInBounds (sweepInner now s vcell ids) := by
  induction ids generalizing s vcell with
  | nil => exact hs
  | cons oid tl ih =>
    simp only [sweepInner]
    split
    · exact ih s vcell hw hh hs hv
    · rename_i other hother
      split
      · exact ih s vcell hw hh hs hv
      · split
        · split
          · refine ih _ _ ?_ ?_ ?_ ?_
            · rw [(absorbCells_pres _ _ _ _).2]
              exact hw
            · rw [(absorbCells_pres _ _ _ _).2]
              exact hh
            · exact absorbCells_inBounds _ _ _ _ hw hh hs hv
            · rw [(absorbCells_pres _ _ _ _).2]
              exact absorbedWinner_inRect _ _ _ _ hw hh hv
          · split
            · refine ih _ _ ?_ ?_ ?_ ?_
              · rw [(absorbCells_pres _ _ _ _).2]
                exact hw
              · rw [(absorbCells_pres _ _ _ _).2]
                exact hh
              · refine absorbCells_inBounds _ _ _ _ hw hh hs ?_
                exact hs _ (getCell_mem hother).1
              · rw [(absorbCells_pres _ _ _ _).2]
                exact hv
            · exact ih s vcell hw hh hs hv
        · exact ih s vcell hw hh hs hv

theorem sweepOuter_inBounds (now : ℝ) (ids : List String) (s : WorldM)
    (hw : 0 ≤ s.config.width) (hh : 0 ≤ s.config.height)
    (hs : cellsInBounds s) : cellsInBounds (sweepOuter now s ids) := by
  induction ids generalizing s with
  | nil => exact hs
  | cons cid rest ih =>
    simp only [sweepOuter]
    split
    · exact ih s hw hh hs
    · rename_i hcell
      refine ih _ ?_ ?_ ?_
      · rw [(sweepInner_pres _ _ _ _).2]
        exact hw
      · rw [(sweepInner_pres _ _ _ _).2]
        exact hh
      · exact sweepInner_inBounds now rest s _ hw hh hs
          (hs _ (getCell_mem hcell).1)

theorem handleCellCollisions_inBounds (s : WorldM) (evs : List CollisionEv)
    (now : ℝ) (hw : 0 ≤ s.config.width) (hh : 0 ≤ s.config.height)
    (hs : cellsInBounds s) :
    cellsInBounds (handleCellCollisions s evs now) := by
  simp only [handleCellCollisions]
  refine sweepOuter_inBounds now _ _ ?_ ?_ ?_
  · rw [(foldl_collisionAbsorbStep_pres now evs (s, [])).2]
    exact hw
  · rw [(foldl_collisionAbsorbStep_pres now evs (s, [])).2]
    exact hh
  · exact foldl_collisionAbsorbStep_inBounds now evs (s, []) hw hh hs

theorem eatStep_inBounds (st : WorldM × List String) (f : FoodM)
    (hs : cellsInBounds st.1) : cellsInBounds (eatStep st f).1 := by
  simp only [eatStep]
  split
  · rename_i c hc
    intro x hx
    rcases mem_setCell hx with h | h
    · exact hs x h
    · rw [h]
      exact hs c (List.mem_of_find?_eq_some hc)
  · exact hs

theorem foldl_eatStep_inBounds (foods : List FoodM)
    (st : WorldM × List String) (hs : cellsInBounds st.1) :
    cellsInBounds (foods.foldl eatStep st).1 := by
  induction foods generalizing st with
  | nil => exact hs
  | cons f t ih =>
    simp only [List.foldl_cons]
    exact ih _ (eatStep_inBounds st f hs)

theorem handleFoodCollisions_inBounds (s : WorldM) (fresh : ℕ → FoodM)
    (hs : cellsInBounds s) : cellsInBounds (handleFoodCollisions s fresh) := by
  simp only [handleFoodCollisions]
  exact foldl_eatStep_inBounds s.foods (s, []) hs

theorem selfMergeInner_inBounds (now : ℝ) (aId : String) (ids : List String)
    (s : WorldM) (hw : 0 ≤ s.config.width) (hh : 0 ≤ s.config.height)
    (hs : cellsInBounds s) :
    cellsInBounds (selfMergeInner now aId s ids).1 := by
  induction ids generalizing s with
  | nil => exact hs
  | cons b tl ih =>
    simp only [selfMergeInner]
    split
    · rename_i ca cb hca hcb
      split
      · exact ih s hw hh hs
      · split
        · refine ih _ ?_ ?_ ?_
          · rw [(mergeCellsV_pres _ _ _ _).2]
            exact hw
          · rw [(mergeCellsV_pres _ _ _ _).2]
            exact hh
          · refine mergeCellsV_inBounds _ _ _ _ hw hh hs ?_
            exact hs _ (getCell_mem hca).1
        · exact ih s hw hh hs
    · exact ih s hw hh hs

theorem selfMergeScan_inBounds (now : ℝ) (ids : List String) (s : WorldM)
    (hw : 0 ≤ s.config.width) (hh : 0 ≤ s.config.height)
    (hs : cellsInBounds s) :
    cellsInBounds (selfMergeScan now s ids).1 := by
  induction ids generalizing s with
  | nil => exact hs
  | cons a rest ih =>
    simp only [selfMergeScan]
    split
    · exact ih s hw hh hs
    · refine ih _ ?_ ?_ ?_
      · rw [(selfMergeInner_pres _ _ _ _).2]
        exact hw
      · rw [(selfMergeInner_pres _ _ _ _).2]
        exact hh
      · exact selfMergeInner_inBounds now a rest s hw hh hs

theorem handleSelfMerges_inBounds (s : WorldM) (now : ℝ)
    (hw : 0 ≤ s.config.width) (hh : 0 ≤ s.config.height)
    (hs : cellsInBounds s) : cellsInBounds (handleSelfMerges s now) := by
  simp only [handleSelfMerges]
  have hstep : ∀ (l : List (String × List String)) (st : WorldM),
      0 ≤ st.config.width → 0 ≤ st.config.height → cellsInBounds st →
      cellsInBounds (l.foldl (fun st pe =>
        let ids := pe.2.filter (fun cid => (getCell st cid).isSome)
        if ids.length < 2 then st
        else
          let r := selfMergeScan now st ids
          if 0 < r.2 then
            let survivors := ids.filter (fun cid => (getCell r.1 cid).isSome)
            { r.1 with playerCells := aset r.1.playerCells pe.1 survivors }
          else r.1) st) := by
    intro l
    induction l with
    | nil => exact fun st _ _ h => h
    | cons pe t ih =>
      intro st hw' hh' hs'
      simp only [List.foldl_cons]
      refine ih _ ?_ ?_ ?_
      all_goals repeat' split
      all_goals
        first
        | exact hw'
        | exact hh'
        | exact hs'
        | · rw [(selfMergeScan_pres _ _ _).2]
            first
            | exact hw'
            | exact hh'
        | · intro x hx
            exact selfMergeScan_inBounds now _ st hw' hh' hs' x hx
  exact hstep s.playerCells s hw hh hs

theorem splitPlayer_inBounds (s : WorldM) (pid : String) (now : ℝ)
    (freshId : String) (seed : ℕ) (hw : 0 ≤ s.config.width)
    (hh : 0 ≤ s.config.height) (hs : cellsInBounds s) :
    cellsInBounds (splitPlayer s pid now freshId seed) := by
  simp only [splitPlayer]
  repeat' split
  all_goals try exact hs
  intro x hx
  rw [List.mem_append] at hx
  rcases hx with hx | hx
  · rcases mem_setCell hx with h | h
    · exact hs x h
    · rw [h]
      exact clampPos_inRect _ _ _ hw hh
  · rw [List.mem_singleton] at hx
    rw [hx]
    exact clampPos_inRect _ _ _ hw hh

theorem tickW_inBounds (s : WorldM) (dt now : ℝ) (fresh : ℕ → FoodM)
    (hw : 0 ≤ s.config.width) (hh : 0 ≤ s.config.height) :
    cellsInBounds (tickW s dt now fresh) := by
  simp only [tickW]
  have h1 : cellsInBounds { s with
      cells := (engineStep s.config.width s.config.height (tickClampDt dt)
        (s.cells.map (fun c =>
          let t := (alookup s.targets c.playerId).getD c.pos
          { c with target := clampPos s.config.width s.config.height t }))).1 } := by
    intro c hc
    exact engineStep_inRect s.config.width s.config.height _ _ hw hh c hc
  refine handleSelfMerges_inBounds _ _ ?_ ?_ ?_
  · rw [(handleCellCollisions_pres _ _ _).2, (handleFoodCollisions_spec _ _).2]
    exact hw
  · rw [(handleCellCollisions_pres _ _ _).2, (handleFoodCollisions_spec _ _).2]
    exact hh
  · refine handleCellCollisions_inBounds _ _ _ ?_ ?_ ?_
    · rw [(handleFoodCollisions_spec _ _).2]
      exact hw
    · rw [(handleFoodCollisions_spec _ _).2]
      exact hh
    · exact handleFoodCollisions_inBounds _ _ h1

/-- C7: for every world with a nonnegative rectangle, every cell alive
after a tick lies in [0, width] × [0, height] (every tick re-clamps every
integrated position, and each later move writes only clamped positions);
moreover each single operation that moves cells — split placement, absorb
and merge centroids — preserves the in-bounds invariant, clamping every
position it writes. -/
theorem positions_in_bounds (s : WorldM) (dt now : ℝ) (fresh : ℕ → FoodM)
    (pid freshId : String) (seed : ℕ) (winner loser primary secondary : CellM)
    (hw : 0 ≤ s.config.width) (hh : 0 ≤ s.config.height) :
    cellsInBounds (tickW s dt now fresh) ∧
    (cellsInBounds s → cellsInBounds (splitPlayer s pid now freshId seed)) ∧
    (cellsInBounds s → inRect s.config.width s.config.height winner.pos →
      cellsInBounds (absorbCells s winner loser now)) ∧
    (cellsInBounds s → inRect s.config.width s.config.height primary.pos →
      cellsInBounds (mergeCellsV s primary secondary now)) := by
  refine ⟨tickW_inBounds s dt now fresh hw hh, ?_, ?_, ?_⟩
  · exact fun hs => splitPlayer_inBounds s pid now freshId seed hw hh hs
  · exact fun hs hwin => absorbCells_inBounds s winner loser now hw hh hs hwin
  · exact fun hs hp => mergeCellsV_inBounds s primary secondary now hw hh hs hp

/-! ## C1: the absorb operation -/

theorem absorbedWinner_id (cfg : WorldConfigM) (winner loser : CellM)
    (now : ℝ) : (absorbedWinner cfg winner loser now).id = winner.id := rfl

theorem absorbedWinner_radius (cfg : WorldConfigM) (winner loser : CellM)
    (now : ℝ) : (absorbedWinner cfg winner loser now).radius =
      Real.sqrt ((cellArea winner + cellArea loser * 0.8) / Real.pi) := rfl

theorem absorbedWinner_mergeReadyAt (cfg : WorldConfigM)
    (winner loser : CellM) (now : ℝ) :
    (absorbedWinner cfg winner loser now).mergeReadyAt = now + MERGE_DELAY :=
  rfl

theorem cellArea_nonneg (c : CellM) : 0 ≤ cellArea c := by
  unfold cellArea
  positivity

theorem cellArea_absorbedWinner (cfg : WorldConfigM) (winner loser : CellM)
    (now : ℝ) : cellArea (absorbedWinner cfg winner loser now) =
      cellArea winner + cellArea loser * 0.8 := by
  have hT : 0 ≤ (cellArea winner + cellArea loser * 0.8) / Real.pi := by
    have := cellArea_nonneg winner
    have := cellArea_nonneg loser
    positivity
  unfold cellArea
  rw [absorbedWinner_radius, Real.sq_sqrt hT]
  rw [show cellArea winner + cellArea loser * 0.8 =
    Real.pi * winner.radius ^ 2 + Real.pi * loser.radius ^ 2 * 0.8 by
      unfold cellArea; ring]
  field_simp

theorem absorbedWinner_area_mono (cfg : WorldConfigM) (winner loser : CellM)
    (now : ℝ) :
    cellArea winner ≤ cellArea (absorbedWinner cfg winner loser now) := by
  rw [cellArea_absorbedWinner]
  have := cellArea_nonneg loser
  linarith

theorem convex_coord_mem (x y wid α β : ℝ) (hx0 : 0 ≤ x) (hxw : x ≤ wid)
    (hy0 : 0 ≤ y) (hyw : y ≤ wid) (hα : 0 ≤ α) (hβ : 0 ≤ β)
    (hsum : α + β = 1) : 0 ≤ x * α + y * β ∧ x * α + y * β ≤ wid := by
  constructor
  · have := mul_nonneg hx0 hα
    have := mul_nonneg hy0 hβ
    linarith
  · have h1 : x * α ≤ wid * α := mul_le_mul_of_nonneg_right hxw hα
    have h2 : y * β ≤ wid * β := mul_le_mul_of_nonneg_right hyw hβ
    nlinarith

/-- Under the claim's preconditions, `_absorb` deterministically rewrites
the world: the winner cell is replaced by its absorbed value, the loser
cell and the loser player (its last cell gone) are removed, the winner
player's `cells_eaten` is bumped, and the elimination event is appended. -/
theorem absorbCells_eq (s : WorldM) (winner loser : CellM) (now : ℝ)
    (wp lp : PlayerM)
    (hL : getCell s loser.id = some loser)
    (hid : winner.id ≠ loser.id)
    (hwp : getPlayer s winner.playerId = some wp)
    (hlp : getPlayer s loser.playerId = some lp)
    (hlast : alookup s.playerCells loser.playerId = some [loser.id]) :
    absorbCells s winner loser now = { s with
      cells := (setCell s.cells (absorbedWinner s.config winner loser now)).filter
        (fun x => !(x.id == loser.id)),
      players := (s.players.map (fun p =>
        if p.id == winner.playerId then
          { p with cellsEaten := p.cellsEaten + 1 }
        else p)).filter (fun p => !(p.id == loser.playerId)),
      playerCells := aremove s.playerCells loser.playerId,
      targets := aremove s.targets loser.playerId,
      splitCooldowns := aremove s.splitCooldowns loser.playerId,
      events := s.events ++
        [{ typ := "player_eliminated", winnerId := winner.playerId,
           loserId := loser.playerId, winnerName := some wp.name,
           loserName := some lp.name }] } := by
  have hgp1 : getPlayer { s with
      cells := setCell s.cells (absorbedWinner s.config winner loser now) }
      winner.playerId = some wp := hwp
  have hlp1 : getPlayer { s with
      cells := setCell s.cells (absorbedWinner s.config winner loser now) }
      loser.playerId = some lp := hlp
  have hgc2 : getCell { s with
      cells := setCell s.cells (absorbedWinner s.config winner loser now),
      players := s.players.map (fun p =>
        if p.id == winner.playerId then
          { p with cellsEaten := p.cellsEaten + 1 }
        else p) } loser.id = some loser := by
    show (setCell s.cells (absorbedWinner s.config winner loser now)).find?
      (fun c => c.id == loser.id) = some loser
    unfold setCell
    rw [find?_key_map_ne (fun x => x.id)
      (fun _ => absorbedWinner s.config winner loser now) s.cells
      (absorbedWinner s.config winner loser now).id loser.id
      (fun _ _ => rfl) (by rw [absorbedWinner_id]; exact fun h => hid h.symm)]
    exact hL
  simp only [absorbCells, hgp1, hlp1]
  simp only [removeCellW, hgc2]
  simp only [hlast]
  rw [if_pos (show ([loser.id] : List String) ≠ [] ∧
    loser.id ∈ [loser.id] by simp)]
  rw [List.erase_cons_head]
  rw [if_pos rfl]
  rw [alookup_aremove_self]
  simp only [Option.getD_none, if_true]
  rfl

theorem absorbedWinner_pos_eq (cfg : WorldConfigM) (winner loser : CellM)
    (now : ℝ) (hT : 0 < cellArea winner + cellArea loser * 0.8) :
    (absorbedWinner cfg winner loser now).pos = clampPos cfg.width cfg.height
      (winner.pos.1 * (cellArea winner /
          (cellArea winner + cellArea loser * 0.8)) +
        loser.pos.1 * (cellArea loser * 0.8 /
          (cellArea winner + cellArea loser * 0.8)),
       winner.pos.2 * (cellArea winner /
          (cellArea winner + cellArea loser * 0.8)) +
        loser.pos.2 * (cellArea loser * 0.8 /
          (cellArea winner + cellArea loser * 0.8))) := by
  simp only [absorbedWinner]
  rw [if_pos hT]

/-- C1: an absorption (triggered when two overlapping cells with different
owners satisfy the radius-ratio threshold) gives the winner the area
`area(winner) + 0.8·area(loser)`, moves it to the area-weighted centroid
(loser weighted 0.8; the clamp is the identity because the centroid of two
in-bounds points is in bounds), sets its radius to √(new_area/π) and its
merge timer to now + MERGE_DELAY, so its area cannot decrease; the winner
player's `cells_eaten` grows by exactly one, the loser cell is removed, and
— the loser cell being its owner's last — the loser player is removed and
a `player_eliminated` event carrying winner id/name and loser id/name is
appended to the world's event queue. -/
theorem absorb_spec (s : WorldM) (winner loser : CellM) (now : ℝ)
    (wp lp : PlayerM)
    (hW : getCell s winner.id = some winner)
    (hL : getCell s loser.id = some loser)
    (hid : winner.id ≠ loser.id)
    (howner : winner.playerId ≠ loser.playerId)
    (hrw : 0 < winner.radius)
    (hwp : getPlayer s winner.playerId = some wp)
    (hlp : getPlayer s loser.playerId = some lp)
    (hlast : alookup s.playerCells loser.playerId = some [loser.id])
    (hwin : inRect s.config.width s.config.height winner.pos)
    (hlin : inRect s.config.width s.config.height loser.pos) :
    getCell (absorbCells s winner loser now) winner.id =
      some (absorbedWinner s.config winner loser now) ∧
    cellArea (absorbedWinner s.config winner loser now) =
      cellArea winner + 0.8 * cellArea loser ∧
    (absorbedWinner s.config winner loser now).pos =
      (winner.pos.1 * (cellArea winner /
          (cellArea winner + cellArea loser * 0.8)) +
        loser.pos.1 * (cellArea loser * 0.8 /
          (cellArea winner + cellArea loser * 0.8)),
       winner.pos.2 * (cellArea winner /
          (cellArea winner + cellArea loser * 0.8)) +
        loser.pos.2 * (cellArea loser * 0.8 /
          (cellArea winner + cellArea loser * 0.8))) ∧
    (absorbedWinner s.config winner loser now).radius =
      Real.sqrt ((cellArea winner + cellArea loser * 0.8) / Real.pi) ∧
    (absorbedWinner s.config winner loser now).mergeReadyAt =
      now + MERGE_DELAY ∧
    cellArea winner ≤ cellArea (absorbedWinner s.config winner loser now) ∧
    getPlayer (absorbCells s winner loser now) winner.playerId =
      some { wp with cellsEaten := wp.cellsEaten + 1 } ∧
    getCell (absorbCells s winner loser now) loser.id = none ∧
    getPlayer (absorbCells s winner loser now) loser.playerId = none ∧
    (absorbCells s winner loser now).events = s.events ++
      [{ typ := "player_eliminated", winnerId := winner.playerId,
         loserId := loser.playerId, winnerName := some wp.name,
         loserName := some lp.name }] := by
  have hmain := absorbCells_eq s winner loser now wp lp hL hid hwp hlp hlast
  have hA : 0 < cellArea winner := by
    have h2 : 0 < winner.radius ^ 2 := pow_pos hrw 2
    unfold cellArea
    exact mul_pos Real.pi_pos h2
  have hLnn : 0 ≤ cellArea loser * 0.8 :=
    mul_nonneg (cellArea_nonneg loser) (by norm_num)
  have hT : 0 < cellArea winner + cellArea loser * 0.8 := by linarith
  refine ⟨?_, ?_, ?_, absorbedWinner_radius _ _ _ _,
    absorbedWinner_mergeReadyAt _ _ _ _, absorbedWinner_area_mono _ _ _ _,
    ?_, ?_, ?_, ?_⟩
  · rw [hmain]
    show ((setCell s.cells (absorbedWinner s.config winner loser now)).filter
        (fun x => !(x.id == loser.id))).find? (fun c => c.id == winner.id) =
      some (absorbedWinner s.config winner loser now)
    rw [@find?_key_filter_ne CellM (fun x => x.id) _ loser.id winner.id hid]
    unfold setCell
    rw [show (absorbedWinner s.config winner loser now).id = winner.id
      from rfl]
    rw [@find?_key_map_self CellM (fun x => x.id)
      (fun _ => absorbedWinner s.config winner loser now) s.cells winner.id
      (fun _ _ => rfl)]
    unfold getCell at hW
    rw [hW]
    rfl
  · rw [cellArea_absorbedWinner]
    ring
  · rw [absorbedWinner_pos_eq s.config winner loser now hT]
    apply clampPos_eq_self
    have hTne : cellArea winner + cellArea loser * 0.8 ≠ 0 := ne_of_gt hT
    have hα : 0 ≤ cellArea winner /
        (cellArea winner + cellArea loser * 0.8) :=
      div_nonneg (le_of_lt hA) (le_of_lt hT)
    have hβ : 0 ≤ cellArea loser * 0.8 /
        (cellArea winner + cellArea loser * 0.8) :=
      div_nonneg hLnn (le_of_lt hT)
    have hsum : cellArea winner / (cellArea winner + cellArea loser * 0.8) +
        cellArea loser * 0.8 / (cellArea winner + cellArea loser * 0.8) = 1 := by
      field_simp
    obtain ⟨hw1, hw2, hw3, hw4⟩ := hwin
    obtain ⟨hl1, hl2, hl3, hl4⟩ := hlin
    have hx := convex_coord_mem winner.pos.1 loser.pos.1 s.config.width _ _
      hw1 hw2 hl1 hl2 hα hβ hsum
    have hy := convex_coord_mem winner.pos.2 loser.pos.2 s.config.height _ _
      hw3 hw4 hl3 hl4 hα hβ hsum
    exact ⟨hx.1, hx.2, hy.1, hy.2⟩
  · rw [hmain]
    show ((s.players.map (fun p =>
        if p.id == winner.playerId then
          { p with cellsEaten := p.cellsEaten + 1 }
        else p)).filter (fun p => !(p.id == loser.playerId))).find?
        (fun p => p.id == winner.playerId) =
      some { wp with cellsEaten := wp.cellsEaten + 1 }
    rw [@find?_key_filter_ne PlayerM (fun p => p.id) _ loser.playerId
      winner.playerId howner]
    rw [@find?_key_map_self PlayerM (fun p => p.id)
      (fun p => { p with cellsEaten := p.cellsEaten + 1 }) s.players
      winner.playerId (fun _ h => h)]
    unfold getPlayer at hwp
    rw [hwp]
    rfl
  · rw [hmain]
    show ((setCell s.cells (absorbedWinner s.config winner loser now)).filter
        (fun x => !(x.id == loser.id))).find? (fun c => c.id == loser.id) =
      none
    exact @find?_key_filter_self CellM (fun x => x.id) _ loser.id
  · rw [hmain]
    show ((s.players.map (fun p =>
        if p.id == winner.playerId then
          { p with cellsEaten := p.cellsEaten + 1 }
        else p)).filter (fun p => !(p.id == loser.playerId))).find?
        (fun p => p.id == loser.playerId) = none
    exact @find?_key_filter_self PlayerM (fun p => p.id) _ loser.playerId
  · rw [hmain]

/-! Concrete two-player scenario used by the C1 witness. -/

def c1Winner : CellM :=
  { id := "a", playerId := "A", pos := (100, 100), vel := (0, 0),
    radius := 60, target := (100, 100), mergeReadyAt := 0 }

def c1Loser : CellM :=
  { id := "b", playerId := "B", pos := (100, 100), vel := (0, 0),
    radius := 20, target := (100, 100), mergeReadyAt := 0 }

def c1WP : PlayerM :=
  { name := "Ann", token := "t1", id := "A", color := (1, 2, 3), score := 0,
    foodEaten := 0, cellsEaten := 0 }

def c1LP : PlayerM :=
  { name := "Bob", token := "t2", id := "B", color := (4, 5, 6), score := 0,
    foodEaten := 0, cellsEaten := 0 }

def c1World : WorldM :=
  { config := { name := "w", width := 500, height := 500, tickRate := 30,
                foodCount := 0, snapshotInterval := 10 },
    players := [c1WP, c1LP], cells := [c1Winner, c1Loser],
    playerCells := [("A", ["a"]), ("B", ["b"])], foods := [],
    targets := [], events := [], splitCooldowns := [] }

/-- Witness for C1 on the concrete scenario: the loser cell and player are
gone after the absorption and the elimination event is queued. -/
theorem absorb_spec_witness :
    getCell (absorbCells c1World c1Winner c1Loser 0) c1Loser.id = none ∧
    getPlayer (absorbCells c1World c1Winner c1Loser 0) c1Loser.playerId =
      none ∧
    (absorbCells c1World c1Winner c1Loser 0).events = c1World.events ++
      [{ typ := "player_eliminated", winnerId := c1Winner.playerId,
         loserId := c1Loser.playerId, winnerName := some c1WP.name,
         loserName := some c1LP.name }] := by
  have h := absorb_spec c1World c1Winner c1Loser 0 c1WP c1LP
    rfl rfl (by decide) (by decide)
    (by norm_num [c1Winner]) rfl rfl rfl
    (by norm_num [inRect, c1World, c1Winner])
    (by norm_num [inRect, c1World, c1Loser])
  exact ⟨h.2.2.2.2.2.2.2.1, h.2.2.2.2.2.2.2.2.1, h.2.2.2.2.2.2.2.2.2⟩

/-! ## C2: the split operation -/

theorem find?_setCell_of_id_eq (cells : List CellM) (c' c₀ : CellM)
    (k : String) (hk : c'.id = k)
    (h : cells.find? (fun x => x.id == k) = some c₀) :
    (setCell cells c').find? (fun x => x.id == k) = some c' := by
  unfold setCell
  subst hk
  rw [@find?_key_map_self CellM (fun x => x.id) (fun _ => c') cells c'.id
    (fun _ _ => rfl), h]
  rfl

/-- C2: `split_player` leaves the world unchanged when the cooldown is
active, the player owns no cells or at least 8 cells, the largest owned
cell's radius is below SPLIT_MIN_RADIUS = 30, or the half-area radius would
be below SPLIT_MIN_RADIUS/2 (a dead check: it cannot fire when the radius
check passed); otherwise exactly one new cell is created (appended last,
owned by the player, with the fresh id), both the shrunken original and the
new cell have radius √((area_before/2)/π) so the owned area is preserved
exactly, and the player's split cooldown becomes now + SPLIT_COOLDOWN. -/
theorem split_player_spec (s : WorldM) (pid : String) (now : ℝ)
    (freshId : String) (seed : ℕ) :
    (now < (alookup s.splitCooldowns pid).getD 0 →
      splitPlayer s pid now freshId seed = s) ∧
    ((alookup s.playerCells pid).getD [] = [] →
      splitPlayer s pid now freshId seed = s) ∧
    (8 ≤ ((alookup s.playerCells pid).getD []).length →
      splitPlayer s pid now freshId seed = s) ∧
    (∀ c : CellM,
      getCell s (argmaxKey
        (fun cid => ((getCell s cid).map CellM.radius).getD 0)
        ((alookup s.playerCells pid).getD [])) = some c →
      c.radius < SPLIT_MIN_RADIUS →
      splitPlayer s pid now freshId seed = s) ∧
    (∀ c : CellM,
      getCell s (argmaxKey
        (fun cid => ((getCell s cid).map CellM.radius).getD 0)
        ((alookup s.playerCells pid).getD [])) = some c →
      Real.sqrt (cellArea c / 2 / Real.pi) < SPLIT_MIN_RADIUS / 2 →
      splitPlayer s pid now freshId seed = s) ∧
    (∀ c : CellM,
      ¬ now < (alookup s.splitCooldowns pid).getD 0 →
      (alookup s.playerCells pid).getD [] ≠ [] →
      ¬ 8 ≤ ((alookup s.playerCells pid).getD []).length →
      getCell s (argmaxKey
        (fun cid => ((getCell s cid).map CellM.radius).getD 0)
        ((alookup s.playerCells pid).getD [])) = some c →
      SPLIT_MIN_RADIUS ≤ c.radius →
      (splitPlayer s pid now freshId seed).cells.length =
        s.cells.length + 1 ∧
      (getCell (splitPlayer s pid now freshId seed) c.id).map CellM.radius =
        some (Real.sqrt (cellArea c / 2 / Real.pi)) ∧
      ((splitPlayer s pid now freshId seed).cells.getLast?).map CellM.id =
        some freshId ∧
      ((splitPlayer s pid now freshId seed).cells.getLast?).map
        CellM.playerId = some pid ∧
      ((splitPlayer s pid now freshId seed).cells.getLast?).map
        CellM.radius = some (Real.sqrt (cellArea c / 2 / Real.pi)) ∧
      Real.pi * Real.sqrt (cellArea c / 2 / Real.pi) ^ 2 +
        Real.pi * Real.sqrt (cellArea c / 2 / Real.pi) ^ 2 = cellArea c ∧
      alookup (splitPlayer s pid now freshId seed).splitCooldowns pid =
        some (now + SPLIT_COOLDOWN)) := by
  refine ⟨?_, ?_, ?_, ?_, ?_, ?_⟩
  · intro h1
    simp only [splitPlayer]
    rw [if_pos h1]
  · intro h2
    simp only [splitPlayer]
    by_cases h1 : now < (alookup s.splitCooldowns pid).getD 0
    · rw [if_pos h1]
    · rw [if_neg h1, if_pos h2]
  · intro h3
    simp only [splitPlayer]
    by_cases h1 : now < (alookup s.splitCooldowns pid).getD 0
    · rw [if_pos h1]
    · by_cases h2 : (alookup s.playerCells pid).getD [] = []
      · rw [if_neg h1, if_pos h2]
      · rw [if_neg h1, if_neg h2, if_pos h3]
  · intro c hc hrad
    simp only [splitPlayer]
    by_cases h1 : now < (alookup s.splitCooldowns pid).getD 0
    · rw [if_pos h1]
    · by_cases h2 : (alookup s.playerCells pid).getD [] = []
      · rw [if_neg h1, if_pos h2]
      · by_cases h3 : 8 ≤ ((alookup s.playerCells pid).getD []).length
        · rw [if_neg h1, if_neg h2, if_pos h3]
        · rw [if_neg h1, if_neg h2, if_neg h3]
          simp only [hc]
          rw [if_pos hrad]
  · intro c hc h15
    simp only [splitPlayer]
    by_cases h1 : now < (alookup s.splitCooldowns pid).getD 0
    · rw [if_pos h1]
    · by_cases h2 : (alookup s.playerCells pid).getD [] = []
      · rw [if_neg h1, if_pos h2]
      · by_cases h3 : 8 ≤ ((alookup s.playerCells pid).getD []).length
        · rw [if_neg h1, if_neg h2, if_pos h3]
        · by_cases h30 : c.radius < SPLIT_MIN_RADIUS
          · rw [if_neg h1, if_neg h2, if_neg h3]
            simp only [hc]
            rw [if_pos h30]
          · rw [if_neg h1, if_neg h2, if_neg h3]
            simp only [hc]
            rw [if_neg h30, if_pos h15]
  · intro c h1 h2 h3 hc h30
    have hnr : ¬ Real.sqrt (cellArea c / 2 / Real.pi) <
        SPLIT_MIN_RADIUS / 2 := by
      rw [not_lt]
      have hx : cellArea c / 2 / Real.pi = c.radius ^ 2 / 2 := by
        unfold cellArea
        field_simp
        ring
      rw [hx]
      apply Real.le_sqrt_of_sq_le
      rw [show SPLIT_MIN_RADIUS = 30 by norm_num [SPLIT_MIN_RADIUS]] at h30 ⊢
      nlinarith
    have hcfind : s.cells.find? (fun x => x.id == c.id) = some c := by
      have hcid := (getCell_mem hc).2
      rw [← hcid] at hc
      exact hc
    have hApos : 0 ≤ cellArea c / 2 / Real.pi := by
      have := cellArea_nonneg c
      positivity
    refine ⟨?_, ?_, ?_, ?_, ?_, ?_, ?_⟩
    · simp only [splitPlayer]
      rw [if_neg h1, if_neg h2, if_neg h3]
      simp only [hc]
      rw [if_neg (not_lt.mpr h30), if_neg hnr]
      simp only [List.length_append, setCell, List.length_map,
        List.length_singleton]
    · simp only [splitPlayer]
      rw [if_neg h1, if_neg h2, if_neg h3]
      simp only [hc]
      rw [if_neg (not_lt.mpr h30), if_neg hnr]
      simp only [getCell]
      rw [List.find?_append]
      rw [find?_setCell_of_id_eq s.cells _ c c.id (by rfl) hcfind]
      rfl
    · simp only [splitPlayer]
      rw [if_neg h1, if_neg h2, if_neg h3]
      simp only [hc]
      rw [if_neg (not_lt.mpr h30), if_neg hnr]
      simp only [List.getLast?_concat]
      rfl
    · simp only [splitPlayer]
      rw [if_neg h1, if_neg h2, if_neg h3]
      simp only [hc]
      rw [if_neg (not_lt.mpr h30), if_neg hnr]
      simp only [List.getLast?_concat]
      rfl
    · simp only [splitPlayer]
      rw [if_neg h1, if_neg h2, if_neg h3]
      simp only [hc]
      rw [if_neg (not_lt.mpr h30), if_neg hnr]
      simp only [List.getLast?_concat]
      rfl
    · rw [Real.sq_sqrt hApos]
      have hpi := Real.pi_ne_zero
      field_simp
      ring
    · simp only [splitPlayer]
      rw [if_neg h1, if_neg h2, if_neg h3]
      simp only [hc]
      rw [if_neg (not_lt.mpr h30), if_neg hnr]
      exact alookup_aset_self _ _ _

/-! Concrete single-player scenario used by the C2 witness. -/

def c2Cell : CellM :=
  { id := "c1", playerId := "P", pos := (100, 100), vel := (0, 0),
    radius := 40, target := (200, 100), mergeReadyAt := 0 }

def c2World : WorldM :=
  { config := { name := "w", width := 500, height := 500, tickRate := 30,
                foodCount := 0, snapshotInterval := 10 },
    players := [{ name := "Pat", token := "t", id := "P", color := (1, 2, 3),
                  score := 0, foodEaten := 0, cellsEaten := 0 }],
    cells := [c2Cell], playerCells := [("P", ["c1"])], foods := [],
    targets := [("P", (200, 100))], events := [],
    splitCooldowns := [("P", 0)] }

/-- Witness for C2's accepted path: splitting the radius-40 cell at t = 1
creates exactly one new cell and sets the cooldown to 1 + SPLIT_COOLDOWN. -/
theorem split_player_spec_witness :
    (splitPlayer c2World "P" 1 "n" 0).cells.length =
      c2World.cells.length + 1 ∧
    alookup (splitPlayer c2World "P" 1 "n" 0).splitCooldowns "P" =
      some (1 + SPLIT_COOLDOWN) := by
  have h := (split_player_spec c2World "P" 1 "n" 0).2.2.2.2.2 c2Cell
    (by show ¬ (1 : ℝ) < (0 : ℝ); norm_num)
    (by decide) (by decide) rfl
    (by norm_num [SPLIT_MIN_RADIUS, c2Cell])
  exact ⟨h.1, h.2.2.2.2.2.2⟩

/-- Witness for C7 at the concrete two-player world: the tick keeps every
cell inside the 500 × 500 rectangle, and a concrete absorb does too. -/
theorem positions_in_bounds_witness :
    cellsInBounds (tickW c1World (1 / 30) 0
      (fun _ => { id := "f", pos := (1, 1), value := 5 })) ∧
    cellsInBounds (absorbCells c1World c1Winner c1Loser 0) := by
  have h := positions_in_bounds c1World (1 / 30) 0
    (fun _ => { id := "f", pos := (1, 1), value := 5 })
    "A" "n" 0 c1Winner c1Loser c1Winner c1Loser
    (by norm_num [c1World]) (by norm_num [c1World])
  refine ⟨h.1, h.2.2.1 ?_ ?_⟩
  · intro c hcmem
    simp only [c1World, List.mem_cons, List.not_mem_nil, or_false] at hcmem
    rcases hcmem with rfl | rfl <;>
      norm_num [inRect, c1World, c1Winner, c1Loser]
  · norm_num [inRect, c1World, c1Winner]

end Nighty
